import Mathlib

/-
  Verification development for the weaverfi query and normalization engine.

  The TypeScript source is embedded shallowly:
  - JavaScript values flowing through the query layer become the inductive
    JSVal, with JavaScript truthiness made explicit;
  - the retry loop of query becomes a fuel-indexed recursion whose fuel
    counts loop iterations, so nontermination of the source loop shows up as
    the diverged result for every fuel;
  - each network attempt is abstracted into a stream of attempt outcomes;
  - the multicall helper response is passed in as data and the demultiplexing
    code of the source is embedded directly;
  - external collaborators that are not part of the source core (the static
    chain registry, the tracked token catalog from tokens.ts, the price
    oracle from prices.ts) are parameters of an Env record, per their
    interfaces in the specification;
  - JavaScript numbers are embedded as exact rationals, and record types as
    association lists with last-write-wins assignment.
-/

namespace Weaver

/-- Chains supported by getChainTokenData in functions.ts. -/
inductive EVMChain where
  | eth
  | bsc
  | poly
  | ftm
  | avax
  | one
  | cronos
deriving DecidableEq, BEq

/-- String form of a chain identifier, as used by chain.toUpperCase(). -/
def EVMChain.str : EVMChain → String
  | .eth => "eth"
  | .bsc => "bsc"
  | .poly => "poly"
  | .ftm => "ftm"
  | .avax => "avax"
  | .one => "one"
  | .cronos => "cronos"

/-- Shallow embedding of the JavaScript values that flow through the query
    layer: numbers (embedded as exact rationals), strings, ethers BigNumber
    objects, and undefined. -/
inductive JSVal where
  | num (q : ℚ)
  | str (s : String)
  | big (n : ℤ)
  | undef
deriving DecidableEq

/-- JavaScript truthiness of an embedded value: 0 and the empty string are
    falsy, any object (such as a BigNumber) is truthy, undefined is falsy. -/
def JSVal.truthy : JSVal → Bool
  | .num q => decide (q ≠ 0)
  | .str s => decide (s ≠ "")
  | .big _ => true
  | .undef => false

/-- Reading an embedded value as a string, for decoded return values that the
    source stores into string-typed fields. ABI decoding guarantees the
    well-typed case in every run the claims are about. -/
def JSVal.asStr : JSVal → String
  | .str s => s
  | _ => ""

/-- Reading an embedded value as a natural number, for decoded uint8 decimals
    values. ABI decoding guarantees the well-typed case. -/
def JSVal.asNat : JSVal → Nat
  | .num q => q.num.toNat
  | _ => 0

/-- Embedding of parseBN from functions.ts: parseInt(BigNumber.from(bn).toString()).
    On a BigNumber or a number it yields that number; ill-typed inputs, which
    never occur in the runs the claims are about, are mapped to 0. -/
def parseBN : JSVal → ℚ
  | .big n => (n : ℚ)
  | .num q => q
  | _ => 0

/-- Embedding of the JavaScript toLowerCase() on the ASCII strings handled by
    the source, written as a structural map so that it evaluates. -/
def jsToLower (s : String) : String := ⟨s.data.map Char.toLower⟩

/-- Default token logo constant from functions.ts. -/
def defaultTokenLogo : String :=
  "https://cdn.jsdelivr.net/gh/atomiclabs/cryptocurrency-icons@d5c68edec1f5eaec59ac77ff2b48144679cebca1/32/icon/generic.png"

/-- The native currency sentinel address from functions.ts. -/
def defaultAddress : String := "0xeeeeeeeeeeeeeeeeeeeeeeeeeeeeeeeeeeeeeeee"

/-- The retry limit maxQueryRetries from functions.ts. -/
def maxQueryRetries : Nat := 3

/-- An entry of the suppression list ignoredErrors. -/
structure IgnoredError where
  chain : EVMChain
  address : String

/-- The suppression list ignoredErrors from functions.ts, verbatim. -/
def ignoredErrors : List IgnoredError :=
  [⟨.poly, "0x8aaa5e259f74c8114e0a471d9f2adfc66bfe09ed"⟩,
   ⟨.poly, "0x9dd12421c637689c3fc6e661c9e2f02c2f61b3eb"⟩]

/-- The suppression check performed by query before throwing:
    ignoredErrors.find(i => i.chain === chain && i.address === address.toLowerCase()). -/
def suppressed (chain : EVMChain) (address : String) : Bool :=
  (ignoredErrors.find? (fun i => i.chain == chain && i.address == jsToLower address)).isSome

/-- The information carried by the WeaverError raised by query: the chain and
    the fields of the description string Querying method(args) on address. -/
structure ChainQueryError where
  chain : EVMChain
  method : String
  args : List JSVal
  address : String
deriving DecidableEq

/-- Outcome of one attempt of the retry loop (one try block execution). -/
inductive Attempt where
  | succ (v : JSVal)
  | fail
deriving DecidableEq

/-- Result of running the retry loop of query with some amount of fuel:
    a normal return (carrying the returned value, possibly undefined, and the
    number of attempts made), a thrown error (with its attempt count), or
    fuel exhaustion, meaning the loop did not finish within that many
    iterations. -/
inductive QueryResult where
  | value (result : Option JSVal) (attempts : Nat)
  | thrown (e : ChainQueryError) (attempts : Nat)
  | diverged
deriving DecidableEq

/-- Number of attempts recorded in a query result. -/
def QueryResult.attempts : QueryResult → Nat
  | .value _ n => n
  | .thrown _ n => n
  | .diverged => 0

/-- JavaScript truthiness test !result on the result variable of query, which
    starts out undefined. -/
def jsNot : Option JSVal → Bool
  | none => true
  | some v => !v.truthy

/-- The while loop of query from functions.ts, embedded with explicit state:
    k is the length of the chains endpoint list chains[chain].rpcs, o gives
    the outcome of each successive attempt, fuel bounds the number of loop
    iterations, and result, errors, rpcID mirror the source variables;
    attempt counts the attempts made so far. -/
def queryLoop (k : Nat) (chain : EVMChain) (address : String) (method : String)
    (args : List JSVal) (o : Nat → Attempt) :
    Nat → Option JSVal → Nat → Nat → Nat → QueryResult
  | 0, _, _, _, _ => .diverged
  | fuel + 1, result, errors, rpcID, attempt =>
    if jsNot result = true ∧ errors < maxQueryRetries then
      match o attempt with
      | .succ v =>
        queryLoop k chain address method args o fuel (some v) errors rpcID (attempt + 1)
      | .fail =>
        if k ≤ rpcID + 1 then
          if maxQueryRetries ≤ errors + 1 then
            if suppressed chain address then
              queryLoop k chain address method args o fuel result (errors + 1) (rpcID + 1)
                (attempt + 1)
            else
              .thrown ⟨chain, method, args, address⟩ (attempt + 1)
          else
            queryLoop k chain address method args o fuel result (errors + 1) 0 (attempt + 1)
        else
          queryLoop k chain address method args o fuel result errors (rpcID + 1) (attempt + 1)
    else
      .value result attempt

/-- The function query from functions.ts: run the retry loop from its initial
    state (result undefined, errors = 0, rpcID = 0). -/
def query (k : Nat) (chain : EVMChain) (address : String) (method : String)
    (args : List JSVal) (o : Nat → Attempt) (fuel : Nat) : QueryResult :=
  queryLoop k chain address method args o fuel none 0 0 0

/-- A JavaScript exception raised by the embedded demultiplexing code, such as
    reading a property of undefined. -/
inductive JSError where
  | typeError
deriving DecidableEq

/-- One logical call of a multicall batch, as in the CallContext type. -/
structure CallCtx where
  reference : String
  methodName : String
  methodParameters : List JSVal
deriving DecidableEq

/-- Per-call outcome inside a successful multicall helper response, as in the
    CallReturnContext type of ethereum-multicall: the callers reference, the
    success flag and the decoded return values. -/
structure CallReturnContext where
  reference : String
  success : Bool
  returnValues : List JSVal
deriving DecidableEq

/-- The entry of a multicall helper response for one query reference. -/
structure ContractCallReturn where
  callsReturnContext : List CallReturnContext
deriving DecidableEq

/-- Assignment results[key] = value on a JavaScript record embedded as an
    association list: overwrite the existing entry in place, else append. -/
def recSet {α : Type} (l : List (String × α)) (key : String) (v : α) :
    List (String × α) :=
  if l.any (fun p => decide (p.1 = key)) then
    l.map (fun p => if p.1 = key then (key, v) else p)
  else
    l ++ [(key, v)]

/-- Lookup results[key] on a JavaScript record embedded as an association
    list: the value of the first entry with that key, if any. -/
def recGet {α : Type} (l : List (String × α)) (key : String) : Option α :=
  (l.find? (fun p => decide (p.1 = key))).map (fun p => p.2)

/-- The demultiplexing forEach of multicallOneContractQuery: include a call in
    the results record exactly when its success flag is set. -/
def oneContractDemux :
    List CallReturnContext → List (String × List JSVal) → List (String × List JSVal)
  | [], results => results
  | r :: rest, results =>
    if r.success then
      oneContractDemux rest (recSet results r.reference r.returnValues)
    else
      oneContractDemux rest results

/-- The function multicallOneContractQuery from functions.ts. The network
    round trip itself is abstracted away: the helper response entry for the
    single query reference oneContractQuery is passed in as its
    callsReturnContext list, and the demultiplexing loop of the source runs
    over it. -/
def multicallOneContractQuery (callsReturnContext : List CallReturnContext) :
    List (String × List JSVal) :=
  oneContractDemux callsReturnContext []

/-- The demultiplexing forEach of multicallOneMethodQuery over the queried
    contracts. Reading multicallQueryResults[contract].callsReturnContext
    throws when the response has no entry for the contract; a missing or
    unsuccessful first call is skipped. -/
def oneMethodDemux (resp : String → Option ContractCallReturn) :
    List String → List (String × List JSVal) →
    Except JSError (List (String × List JSVal))
  | [], results => .ok results
  | contract :: rest, results =>
    match resp contract with
    | none => .error .typeError
    | some cr =>
      match cr.callsReturnContext.head? with
      | some contractResults =>
        if contractResults.success then
          oneMethodDemux resp rest (recSet results contract contractResults.returnValues)
        else
          oneMethodDemux resp rest results
      | none => oneMethodDemux resp rest results

/-- The function multicallOneMethodQuery from functions.ts, with the helper
    response passed in keyed by contract address. -/
def multicallOneMethodQuery (contracts : List String)
    (resp : String → Option ContractCallReturn) :
    Except JSError (List (String × List JSVal)) :=
  oneMethodDemux resp contracts []

/-- The inner forEach of multicallComplexQuery: every returned call is written
    into the per-contract record, with no success check. -/
def complexInner :
    List CallReturnContext → List (String × List JSVal) → List (String × List JSVal)
  | [], queryResults => queryResults
  | r :: rest, queryResults =>
    complexInner rest (recSet queryResults r.reference r.returnValues)

/-- The outer forEach of multicallComplexQuery over the queried contracts. -/
def complexDemux (resp : String → Option ContractCallReturn) :
    List String → List (String × List (String × List JSVal)) →
    Except JSError (List (String × List (String × List JSVal)))
  | [], results => .ok results
  | contract :: rest, results =>
    match resp contract with
    | none => .error .typeError
    | some cr =>
      complexDemux resp rest (recSet results contract (complexInner cr.callsReturnContext []))

/-- The function multicallComplexQuery from functions.ts, with the helper
    response passed in keyed by contract address. -/
def multicallComplexQuery (contracts : List String)
    (resp : String → Option ContractCallReturn) :
    Except JSError (List (String × List (String × List JSVal))) :=
  complexDemux resp contracts []

/-- A tracked token catalog entry, as in the TokenData type of tokens.ts. -/
structure TokenData where
  address : String
  symbol : String
  logo : String
  decimals : Nat
deriving DecidableEq

/-- A logo catalog entry of the logos list of a chains token data. -/
structure LogoData where
  symbol : String
  logo : String
deriving DecidableEq

/-- The token data of one chain: tracked tokens and extra logos. -/
structure ChainTokenData where
  tokens : List TokenData
  logos : List LogoData
deriving DecidableEq

/-- A multicall round trip issued by the pipeline, recorded so that theorems
    can speak about which batch calls a build operation performs. -/
structure MCRequest where
  chain : EVMChain
  address : String
  calls : List CallCtx
deriving DecidableEq

/-- The external collaborators of the pipeline, per their interfaces in the
    specification: the static token data of each chain (the tokens.ts data
    behind getChainTokenData), the price oracle getTokenPrice from prices.ts
    (Modelled from the spec: getPrice returns a price or absent and failures
    do not propagate as exceptions), and the multicall helper responses for
    the one-contract and one-method batch shapes. -/
structure Env where
  chainTokenData : EVMChain → Option ChainTokenData
  getTokenPrice : EVMChain → String → Nat → Option ℚ
  mcOneContract : EVMChain → String → List CallCtx → List CallReturnContext
  mcOneMethod : EVMChain → List String → String → List JSVal → String → Option ContractCallReturn

/-- The dispatch getChainTokenData from functions.ts, reading the static
    per-chain token data. -/
def getChainTokenData (env : Env) (chain : EVMChain) : Option ChainTokenData :=
  env.chainTokenData chain

/-- The function getTokenLogo from functions.ts. -/
def getTokenLogo (env : Env) (chain : EVMChain) (symbol : String) : String :=
  match getChainTokenData env chain with
  | some data =>
    match data.tokens.find? (fun token => decide (token.symbol = symbol)) with
    | some trackedToken => trackedToken.logo
    | none =>
      match data.logos.find? (fun i => decide (i.symbol = symbol)) with
      | some token => token.logo
      | none => defaultTokenLogo
  | none => defaultTokenLogo

/-- The helper getTrackedTokenInfo from functions.ts: find a catalog entry by
    case-insensitive address comparison. -/
def getTrackedTokenInfo (env : Env) (chain : EVMChain) (address : String) :
    Option TokenData :=
  match getChainTokenData env chain with
  | some data =>
    data.tokens.find? (fun token => decide (jsToLower token.address = jsToLower address))
  | none => none

/-- The helper getNativeTokenSymbol from functions.ts. -/
def getNativeTokenSymbol (chain : EVMChain) : String :=
  if chain = .bsc then "BNB"
  else if chain = .poly then "MATIC"
  else if chain = .cronos then "CRO"
  else chain.str.toUpper

/-- The PricedToken shape: an underlying token entry of an LP or derivative
    holding. -/
structure PricedToken where
  symbol : String
  address : String
  balance : ℚ
  price : Option ℚ
  logo : String
deriving DecidableEq

/-- The shape shared by NativeToken, Token and DebtToken records: kind tag,
    chain, location, status, owner, symbol, address, normalized balance,
    optional price and logo. -/
structure Token where
  type : String
  chain : EVMChain
  location : String
  status : String
  owner : String
  symbol : String
  address : String
  balance : ℚ
  price : Option ℚ
  logo : String
deriving DecidableEq

/-- The LPToken record shape. -/
structure LPToken where
  type : String
  chain : EVMChain
  location : String
  status : String
  owner : String
  symbol : String
  address : String
  balance : ℚ
  token0 : PricedToken
  token1 : PricedToken
deriving DecidableEq

/-- The XToken record shape. -/
structure XToken where
  type : String
  chain : EVMChain
  location : String
  status : String
  owner : String
  symbol : String
  address : String
  balance : ℚ
  logo : String
  underlyingToken : PricedToken
deriving DecidableEq

/-- The symbol and decimals call list built by addToken, addDebtToken and
    addXToken. -/
def tokenCalls : List CallCtx :=
  [⟨"symbol", "symbol", []⟩, ⟨"decimals", "decimals", []⟩]

/-- The call list built by addLPToken for the LP contract. -/
def lpCalls : List CallCtx :=
  [⟨"symbol", "symbol", []⟩, ⟨"decimals", "decimals", []⟩,
   ⟨"reserves", "getReserves", []⟩, ⟨"totalSupply", "totalSupply", []⟩,
   ⟨"token0", "token0", []⟩, ⟨"token1", "token1", []⟩]

/-- The function addNativeToken from functions.ts: fixed 18 decimals, price
    from the oracle at the native sentinel address, symbol from the static
    native symbol table. -/
def addNativeToken (env : Env) (chain : EVMChain) (rawBalance : ℚ) (owner : String) :
    Token :=
  let decimals : Nat := 18
  let balance := rawBalance / 10 ^ decimals
  let price := env.getTokenPrice chain defaultAddress decimals
  let symbol := getNativeTokenSymbol chain
  let logo := getTokenLogo env chain symbol
  { type := "nativeToken", chain := chain, location := "wallet", status := "none",
    owner := owner, symbol := symbol, address := defaultAddress, balance := balance,
    price := price, logo := logo }

/-- The function addToken from functions.ts. The first component of the
    result is the list of multicall round trips issued; the second is the
    built record, or the JavaScript error thrown when a needed key is missing
    from the multicall results. -/
def addToken (env : Env) (chain : EVMChain) (location : String) (status : String)
    (address : String) (rawBalance : ℚ) (owner : String) :
    List MCRequest × Except JSError Token :=
  if jsToLower address = defaultAddress then
    let symbol := getNativeTokenSymbol chain
    let logo := getTokenLogo env chain symbol
    let decimals : Nat := 18
    ([], .ok { type := "token", chain := chain, location := location, status := status,
               owner := owner, symbol := symbol, address := address,
               balance := rawBalance / 10 ^ decimals,
               price := env.getTokenPrice chain address decimals, logo := logo })
  else
    match getTrackedTokenInfo env chain address with
    | some token =>
      ([], .ok { type := "token", chain := chain, location := location, status := status,
                 owner := owner, symbol := token.symbol, address := address,
                 balance := rawBalance / 10 ^ token.decimals,
                 price := env.getTokenPrice chain address token.decimals,
                 logo := token.logo })
    | none =>
      let multicallResults := multicallOneContractQuery (env.mcOneContract chain address tokenCalls)
      match recGet multicallResults "symbol", recGet multicallResults "decimals" with
      | some symVals, some decVals =>
        let symbol := (symVals.headD .undef).asStr
        let decimals := (decVals.headD .undef).asNat
        ([⟨chain, address, tokenCalls⟩],
         .ok { type := "token", chain := chain, location := location, status := status,
               owner := owner, symbol := symbol, address := address,
               balance := rawBalance / 10 ^ decimals,
               price := env.getTokenPrice chain address decimals,
               logo := getTokenLogo env chain symbol })
      | _, _ => ([⟨chain, address, tokenCalls⟩], .error .typeError)

/-- The function addDebtToken from functions.ts: the same resolution path as
    addToken, with kind debt and status fixed to borrowed. -/
def addDebtToken (env : Env) (chain : EVMChain) (location : String)
    (address : String) (rawBalance : ℚ) (owner : String) :
    List MCRequest × Except JSError Token :=
  if jsToLower address = defaultAddress then
    let symbol := getNativeTokenSymbol chain
    let logo := getTokenLogo env chain symbol
    let decimals : Nat := 18
    ([], .ok { type := "debt", chain := chain, location := location, status := "borrowed",
               owner := owner, symbol := symbol, address := address,
               balance := rawBalance / 10 ^ decimals,
               price := env.getTokenPrice chain address decimals, logo := logo })
  else
    match getTrackedTokenInfo env chain address with
    | some token =>
      ([], .ok { type := "debt", chain := chain, location := location, status := "borrowed",
                 owner := owner, symbol := token.symbol, address := address,
                 balance := rawBalance / 10 ^ token.decimals,
                 price := env.getTokenPrice chain address token.decimals,
                 logo := token.logo })
    | none =>
      let multicallResults := multicallOneContractQuery (env.mcOneContract chain address tokenCalls)
      match recGet multicallResults "symbol", recGet multicallResults "decimals" with
      | some symVals, some decVals =>
        let symbol := (symVals.headD .undef).asStr
        let decimals := (decVals.headD .undef).asNat
        ([⟨chain, address, tokenCalls⟩],
         .ok { type := "debt", chain := chain, location := location, status := "borrowed",
               owner := owner, symbol := symbol, address := address,
               balance := rawBalance / 10 ^ decimals,
               price := env.getTokenPrice chain address decimals,
               logo := getTokenLogo env chain symbol })
      | _, _ => ([⟨chain, address, tokenCalls⟩], .error .typeError)

/-- The symbol and decimals resolution of an underlying token inside
    addLPToken: catalog first, else one symbol and decimals multicall against
    the underlying contract, as in the two if blocks of the source. -/
def resolveUnderlying (env : Env) (chain : EVMChain) (address : String) :
    List MCRequest × Except JSError (String × Nat) :=
  match getTrackedTokenInfo env chain address with
  | some trackedToken => ([], .ok (trackedToken.symbol, trackedToken.decimals))
  | none =>
    let tokenResults := multicallOneContractQuery (env.mcOneContract chain address tokenCalls)
    match recGet tokenResults "symbol", recGet tokenResults "decimals" with
    | some symVals, some decVals =>
      ([⟨chain, address, tokenCalls⟩],
       .ok ((symVals.headD .undef).asStr, (decVals.headD .undef).asNat))
    | _, _ => ([⟨chain, address, tokenCalls⟩], .error .typeError)

/-- The function addLPToken from functions.ts: one multicall against the LP
    contract for symbol, decimals, reserves, total supply and the two
    underlying addresses, then catalog-or-multicall resolution of each
    underlying, then the proportional share computation. -/
def addLPToken (env : Env) (chain : EVMChain) (location : String) (status : String)
    (address : String) (rawBalance : ℚ) (owner : String) :
    List MCRequest × Except JSError LPToken :=
  let lpResults := multicallOneContractQuery (env.mcOneContract chain address lpCalls)
  match recGet lpResults "symbol", recGet lpResults "decimals", recGet lpResults "reserves",
        recGet lpResults "totalSupply", recGet lpResults "token0", recGet lpResults "token1" with
  | some symVals, some decVals, some reserveVals, some supplyVals, some t0Vals, some t1Vals =>
    let symbol := (symVals.headD .undef).asStr
    let decimals := (decVals.headD .undef).asNat
    let balance := rawBalance / 10 ^ decimals
    let lpTokenSupply := parseBN (supplyVals.headD .undef) / 10 ^ decimals
    let address0 := (t0Vals.headD .undef).asStr
    let address1 := (t1Vals.headD .undef).asStr
    let r0 := resolveUnderlying env chain address0
    match r0.2 with
    | .error e => ([⟨chain, address, lpCalls⟩] ++ r0.1, .error e)
    | .ok (symbol0, decimals0) =>
      let r1 := resolveUnderlying env chain address1
      match r1.2 with
      | .error e => ([⟨chain, address, lpCalls⟩] ++ r0.1 ++ r1.1, .error e)
      | .ok (symbol1, decimals1) =>
        let supply0 := parseBN (reserveVals.headD .undef) / 10 ^ decimals0
        let supply1 := parseBN (reserveVals.getD 1 .undef) / 10 ^ decimals1
        let token0 : PricedToken :=
          { symbol := symbol0, address := address0,
            balance := supply0 * (balance / lpTokenSupply),
            price := env.getTokenPrice chain address0 decimals0,
            logo := getTokenLogo env chain symbol0 }
        let token1 : PricedToken :=
          { symbol := symbol1, address := address1,
            balance := supply1 * (balance / lpTokenSupply),
            price := env.getTokenPrice chain address1 decimals1,
            logo := getTokenLogo env chain symbol1 }
        ([⟨chain, address, lpCalls⟩] ++ r0.1 ++ r1.1,
         .ok { type := "lpToken", chain := chain, location := location, status := status,
               owner := owner, symbol := symbol, address := address, balance := balance,
               token0 := token0, token1 := token1 })
  | _, _, _, _, _, _ => ([⟨chain, address, lpCalls⟩], .error .typeError)

/-- The function addXToken from functions.ts: a multicall for the derivative
    tokens own symbol and decimals, then the underlying resolution. Note the
    source consults the catalog with the derivative address, not the
    underlying address, while its miss branch multicalls the underlying
    address; the embedding mirrors this exactly. -/
def addXToken (env : Env) (chain : EVMChain) (location : String) (status : String)
    (address : String) (rawBalance : ℚ) (owner : String)
    (underlyingAddress : String) (underlyingRawBalance : ℚ) :
    List MCRequest × Except JSError XToken :=
  let multicallResults := multicallOneContractQuery (env.mcOneContract chain address tokenCalls)
  match recGet multicallResults "symbol", recGet multicallResults "decimals" with
  | some symVals, some decVals =>
    let symbol := (symVals.headD .undef).asStr
    let decimals := (decVals.headD .undef).asNat
    let balance := rawBalance / 10 ^ decimals
    let logo := getTokenLogo env chain symbol
    match getTrackedTokenInfo env chain address with
    | some token =>
      let underlyingToken : PricedToken :=
        { symbol := token.symbol, address := underlyingAddress,
          balance := underlyingRawBalance / 10 ^ token.decimals,
          price := env.getTokenPrice chain underlyingAddress token.decimals,
          logo := token.logo }
      ([⟨chain, address, tokenCalls⟩],
       .ok { type := "xToken", chain := chain, location := location, status := status,
             owner := owner, symbol := symbol, address := address, balance := balance,
             logo := logo, underlyingToken := underlyingToken })
    | none =>
      let underlyingResults :=
        multicallOneContractQuery (env.mcOneContract chain underlyingAddress tokenCalls)
      match recGet underlyingResults "symbol", recGet underlyingResults "decimals" with
      | some usymVals, some udecVals =>
        let underlyingSymbol := (usymVals.headD .undef).asStr
        let underlyingDecimals := (udecVals.headD .undef).asNat
        let underlyingToken : PricedToken :=
          { symbol := underlyingSymbol, address := underlyingAddress,
            balance := underlyingRawBalance / 10 ^ underlyingDecimals,
            price := env.getTokenPrice chain underlyingAddress underlyingDecimals,
            logo := getTokenLogo env chain underlyingSymbol }
        ([⟨chain, address, tokenCalls⟩, ⟨chain, underlyingAddress, tokenCalls⟩],
         .ok { type := "xToken", chain := chain, location := location, status := status,
               owner := owner, symbol := symbol, address := address, balance := balance,
               logo := logo, underlyingToken := underlyingToken })
      | _, _ =>
        ([⟨chain, address, tokenCalls⟩, ⟨chain, underlyingAddress, tokenCalls⟩],
         .error .typeError)
  | _, _ => ([⟨chain, address, tokenCalls⟩], .error .typeError)

/-- The helper addTrackedToken from functions.ts: build a fungible record
    directly from a catalog entry. -/
def addTrackedToken (env : Env) (chain : EVMChain) (location : String) (status : String)
    (token : TokenData) (rawBalance : ℚ) (owner : String) : Token :=
  { type := "token", chain := chain, location := location, status := status,
    owner := owner, symbol := token.symbol, address := token.address,
    balance := rawBalance / 10 ^ token.decimals,
    price := env.getTokenPrice chain token.address token.decimals,
    logo := token.logo }

/-- JavaScript truthiness test !balance on the numeric balance variable of
    getWalletNativeTokenBalance, which starts out undefined. -/
def qNot : Option ℚ → Bool
  | none => true
  | some b => decide (b = 0)

/-- The retry loop of getWalletNativeTokenBalance from functions.ts: like the
    query loop, but every endpoint-list exhaustion just counts an error and
    resets the cursor, and no error is ever thrown. A successful attempt
    parses the BigNumber balance with parseInt. Returns none when the fuel
    runs out, else the final value of the balance variable. -/
def nativeLoop (k : Nat) (o : Nat → Attempt) :
    Nat → Option ℚ → Nat → Nat → Nat → Option (Option ℚ)
  | 0, _, _, _, _ => none
  | fuel + 1, balance, errors, rpcID, attempt =>
    if qNot balance = true ∧ errors < maxQueryRetries then
      match o attempt with
      | .succ v => nativeLoop k o fuel (some (parseBN v)) errors rpcID (attempt + 1)
      | .fail =>
        if k ≤ rpcID + 1 then
          nativeLoop k o fuel balance (errors + 1) 0 (attempt + 1)
        else
          nativeLoop k o fuel balance errors (rpcID + 1) (attempt + 1)
    else
      some balance

/-- The function getWalletNativeTokenBalance from functions.ts: run the
    balance retry loop, then include a native record exactly when the final
    balance is truthy and strictly positive. -/
def getWalletNativeTokenBalance (env : Env) (k : Nat) (chain : EVMChain)
    (wallet : String) (o : Nat → Attempt) (fuel : Nat) : Option (List Token) :=
  match nativeLoop k o fuel none 0 0 0 with
  | none => none
  | some balance =>
    match balance with
    | some b =>
      if b ≠ 0 ∧ 0 < b then some [addNativeToken env chain b wallet] else some []
    | none => some []

/-- The function getWalletTokenBalance from functions.ts: one balanceOf
    multicall over all tracked token addresses of the chain, then one record
    per token whose balance key is present and strictly positive. -/
def getWalletTokenBalance (env : Env) (chain : EVMChain) (wallet : String) :
    Except JSError (List Token) :=
  match getChainTokenData env chain with
  | none => .ok []
  | some data =>
    let addresses := data.tokens.map (fun token => token.address)
    match multicallOneMethodQuery addresses
        (env.mcOneMethod chain addresses "balanceOf" [.str wallet]) with
    | .error e => .error e
    | .ok multicallResults =>
      .ok (data.tokens.filterMap (fun token =>
        match recGet multicallResults token.address with
        | some balanceResults =>
          let rawBalance := parseBN (balanceResults.headD .undef)
          if 0 < rawBalance then
            some (addTrackedToken env chain "wallet" "none" token rawBalance wallet)
          else
            none
        | none => none))

/-- The function getWalletBalance from functions.ts: native balance followed
    by tracked token balances. The outer Option is fuel exhaustion of the
    native retry loop; the Except is an error propagated from the token
    multicall step. -/
def getWalletBalance (env : Env) (k : Nat) (chain : EVMChain) (wallet : String)
    (o : Nat → Attempt) (fuel : Nat) : Option (Except JSError (List Token)) :=
  match getWalletNativeTokenBalance env k chain wallet o fuel with
  | none => none
  | some nativeTokens =>
    match getWalletTokenBalance env chain wallet with
    | .error e => some (.error e)
    | .ok tokens => some (.ok (nativeTokens ++ tokens))

/-- The per-pool fan-out of getPoolBalances in projects/avax/axial.ts, joined
    with Promise.all: each pool branch is abstracted to the outcome of its
    body (the records it would push, or the error it raises); any raising
    branch rejects the whole join. -/
def getPoolBalancesList {α : Type} (branch : Nat → Except JSError (List α)) :
    List Nat → Except JSError (List α)
  | [] => .ok []
  | poolID :: rest =>
    match branch poolID with
    | .error e => .error e
    | .ok balance =>
      match getPoolBalancesList branch rest with
      | .error e => .error e
      | .ok balances => .ok (balance ++ balances)

/-- The function getPoolBalances from projects/avax/axial.ts over pools
    0 to poolCount - 1. -/
def getPoolBalances {α : Type} (poolCount : Nat)
    (branch : Nat → Except JSError (List α)) : Except JSError (List α) :=
  getPoolBalancesList branch (List.range poolCount)

/-- The adapter entry point get from projects/avax/axial.ts: catch any error
    of getPoolBalances and contribute the empty list in that case. -/
def axialGet {α : Type} (poolCount : Nat)
    (branch : Nat → Except JSError (List α)) : List α :=
  match getPoolBalances poolCount branch with
  | .ok balance => balance
  | .error _ => []

/- ===================== Lemmas about the retry loop ===================== -/

theorem maxQueryRetries_eq : maxQueryRetries = 3 := rfl

theorem queryLoop_exit (k : Nat) (c : EVMChain) (a m : String) (ar : List JSVal)
    (o : Nat → Attempt) (fuel : Nat) (result : Option JSVal) (errors rpcID attempt : Nat)
    (h : ¬(jsNot result = true ∧ errors < maxQueryRetries)) :
    queryLoop k c a m ar o (fuel + 1) result errors rpcID attempt = .value result attempt := by
  simp only [queryLoop]
  rw [if_neg h]

theorem queryLoop_succ_step (k : Nat) (c : EVMChain) (a m : String) (ar : List JSVal)
    (o : Nat → Attempt) (fuel : Nat) (result : Option JSVal) (errors rpcID attempt : Nat)
    (v : JSVal) (h1 : jsNot result = true) (h2 : errors < maxQueryRetries)
    (hv : o attempt = .succ v) :
    queryLoop k c a m ar o (fuel + 1) result errors rpcID attempt =
      queryLoop k c a m ar o fuel (some v) errors rpcID (attempt + 1) := by
  simp only [queryLoop]
  rw [if_pos ⟨h1, h2⟩, hv]

theorem queryLoop_fail_next (k : Nat) (c : EVMChain) (a m : String) (ar : List JSVal)
    (o : Nat → Attempt) (fuel : Nat) (result : Option JSVal) (errors rpcID attempt : Nat)
    (h1 : jsNot result = true) (h2 : errors < maxQueryRetries)
    (hv : o attempt = .fail) (hr : ¬ k ≤ rpcID + 1) :
    queryLoop k c a m ar o (fuel + 1) result errors rpcID attempt =
      queryLoop k c a m ar o fuel result errors (rpcID + 1) (attempt + 1) := by
  simp only [queryLoop]
  rw [if_pos ⟨h1, h2⟩, hv]
  simp only [if_neg hr]

theorem queryLoop_fail_reset (k : Nat) (c : EVMChain) (a m : String) (ar : List JSVal)
    (o : Nat → Attempt) (fuel : Nat) (result : Option JSVal) (errors rpcID attempt : Nat)
    (h1 : jsNot result = true) (h2 : errors < maxQueryRetries)
    (hv : o attempt = .fail) (hr : k ≤ rpcID + 1) (he : ¬ maxQueryRetries ≤ errors + 1) :
    queryLoop k c a m ar o (fuel + 1) result errors rpcID attempt =
      queryLoop k c a m ar o fuel result (errors + 1) 0 (attempt + 1) := by
  simp only [queryLoop]
  rw [if_pos ⟨h1, h2⟩, hv]
  simp only [if_pos hr, if_neg he]

theorem queryLoop_fail_exhaust (k : Nat) (c : EVMChain) (a m : String) (ar : List JSVal)
    (o : Nat → Attempt) (fuel : Nat) (result : Option JSVal) (errors rpcID attempt : Nat)
    (h1 : jsNot result = true) (h2 : errors < maxQueryRetries)
    (hv : o attempt = .fail) (hr : k ≤ rpcID + 1) (he : maxQueryRetries ≤ errors + 1) :
    queryLoop k c a m ar o (fuel + 1) result errors rpcID attempt =
      if suppressed c a then
        queryLoop k c a m ar o fuel result (errors + 1) (rpcID + 1) (attempt + 1)
      else
        .thrown ⟨c, m, ar, a⟩ (attempt + 1) := by
  simp only [queryLoop]
  rw [if_pos ⟨h1, h2⟩, hv]
  simp only [if_pos hr, if_pos he]

/-- Advancing through one full failing pass over the endpoint list: from
    endpoint cursor i with d endpoints left in the pass, d failing attempts
    reset the cursor and count one more error, as long as the pass counter is
    not about to reach the limit. -/
theorem queryLoop_allfail_pass (k : Nat) (c : EVMChain) (a m : String) (ar : List JSVal)
    (o : Nat → Attempt) :
    ∀ d fuel e i attempt, i + d = k → 0 < d → e + 1 < 3 →
    (∀ t, t < d → o (attempt + t) = .fail) →
    queryLoop k c a m ar o (d + fuel) none e i attempt =
      queryLoop k c a m ar o fuel none (e + 1) 0 (attempt + d) := by
  intro d
  induction d with
  | zero => intro fuel e i attempt hik hd; omega
  | succ d ih =>
    intro fuel e i attempt hik _ he hfail
    by_cases hd0 : d = 0
    · subst hd0
      have hstep := queryLoop_fail_reset k c a m ar o fuel none e i attempt rfl
        (by rw [maxQueryRetries_eq]; omega) (by simpa using hfail 0 (by omega)) (by omega)
        (by rw [maxQueryRetries_eq]; omega)
      have hrw : 0 + 1 + fuel = fuel + 1 := by omega
      rw [hrw, hstep]
    · have hik' : i + 1 < k := by omega
      have hstep := queryLoop_fail_next k c a m ar o (d + fuel) none e i attempt rfl
        (by rw [maxQueryRetries_eq]; omega) (by simpa using hfail 0 (by omega)) (by omega)
      have hrw : d + 1 + fuel = d + fuel + 1 := by omega
      rw [hrw, hstep]
      have := ih fuel e (i + 1) (attempt + 1) (by omega) (by omega) he
        (fun t ht => by
          have := hfail (t + 1) (by omega)
          simpa [Nat.add_assoc, Nat.add_comm 1 t] using this)
      rw [this]
      congr 1
      omega

/-- The last failing pass: with the pass counter already at the limit minus
    one, d more failing attempts terminate the loop, silently when the
    chain and address pair is suppressed and with a thrown ChainQueryError
    otherwise. -/
theorem queryLoop_allfail_last (k : Nat) (c : EVMChain) (a m : String) (ar : List JSVal)
    (o : Nat → Attempt) :
    ∀ d fuel i attempt, i + d = k → 0 < d →
    (∀ t, t < d → o (attempt + t) = .fail) →
    queryLoop k c a m ar o (d + 1 + fuel) none 2 i attempt =
      if suppressed c a then .value none (attempt + d)
      else .thrown ⟨c, m, ar, a⟩ (attempt + d) := by
  intro d
  induction d with
  | zero => intro fuel i attempt hik hd; omega
  | succ d ih =>
    intro fuel i attempt hik _ hfail
    by_cases hd0 : d = 0
    · subst hd0
      have hstep := queryLoop_fail_exhaust k c a m ar o (fuel + 1) none 2 i attempt rfl
        (by decide) (by simpa using hfail 0 (by omega)) (by omega) (by decide)
      have hrw : 0 + 1 + 1 + fuel = fuel + 1 + 1 := by omega
      rw [hrw, hstep]
      by_cases hs : suppressed c a
      · rw [if_pos hs, if_pos hs]
        exact queryLoop_exit k c a m ar o fuel none 3 (i + 1) (attempt + 1)
          (by simp [maxQueryRetries_eq])
      · rw [if_neg hs, if_neg hs]
    · have hik' : i + 1 < k := by omega
      have hstep := queryLoop_fail_next k c a m ar o (d + 1 + fuel) none 2 i attempt rfl
        (by decide) (by simpa using hfail 0 (by omega)) (by omega)
      have hrw : d + 1 + 1 + fuel = d + 1 + fuel + 1 := by omega
      rw [hrw, hstep]
      have := ih fuel (i + 1) (attempt + 1) (by omega) (by omega)
        (fun t ht => by
          have := hfail (t + 1) (by omega)
          simpa [Nat.add_assoc, Nat.add_comm 1 t] using this)
      rw [this]
      have hrw2 : attempt + 1 + d = attempt + (d + 1) := by omega
      rw [hrw2]

/-- Advancing within one pass: s failing attempts with room left in the
    endpoint list just move the endpoint cursor forward by s. -/
theorem queryLoop_allfail_advance (k : Nat) (c : EVMChain) (a m : String) (ar : List JSVal)
    (o : Nat → Attempt) :
    ∀ s fuel e i attempt, i + s < k → e < maxQueryRetries →
    (∀ t, t < s → o (attempt + t) = .fail) →
    queryLoop k c a m ar o (s + fuel) none e i attempt =
      queryLoop k c a m ar o fuel none e (i + s) (attempt + s) := by
  intro s
  induction s with
  | zero => intro fuel e i attempt _ _ _; simp
  | succ s ih =>
    intro fuel e i attempt hik he hfail
    have hstep := queryLoop_fail_next k c a m ar o (s + fuel) none e i attempt rfl
      he (by simpa using hfail 0 (by omega)) (by omega)
    have hrw : s + 1 + fuel = s + fuel + 1 := by omega
    rw [hrw, hstep]
    have := ih fuel e (i + 1) (attempt + 1) (by omega) he
      (fun t ht => by
        have := hfail (t + 1) (by omega)
        simpa [Nat.add_assoc, Nat.add_comm 1 t] using this)
    rw [this]
    have hrw2 : i + 1 + s = i + (s + 1) := by omega
    have hrw3 : attempt + 1 + s = attempt + (s + 1) := by omega
    rw [hrw2, hrw3]

/-- A truthy successful attempt ends the loop on the next condition check,
    returning that value. -/
theorem queryLoop_truthy_success (k : Nat) (c : EVMChain) (a m : String) (ar : List JSVal)
    (o : Nat → Attempt) (fuel e i attempt : Nat) (v : JSVal)
    (he : e < maxQueryRetries) (hv : o attempt = .succ v) (ht : v.truthy = true) :
    queryLoop k c a m ar o (fuel + 2) none e i attempt = .value (some v) (attempt + 1) := by
  have hstep := queryLoop_succ_step k c a m ar o (fuel + 1) none e i attempt v rfl he hv
  have hrw : fuel + 2 = fuel + 1 + 1 := by omega
  rw [hrw, hstep]
  exact queryLoop_exit k c a m ar o fuel (some v) e i (attempt + 1)
    (by simp [jsNot, ht])

/-- Claim C1. For a chain with k endpoints and the retry limit 3, a call
    whose every attempt fails performs exactly 3 times k attempts and then
    raises a ChainQueryError carrying chain, method, arguments and target
    address, unless the chain and lowercased address pair is in the
    suppression list ignoredErrors, in which case the call returns the
    undefined result with the same attempt count and no error. -/
theorem query_allfail_exhausts (k fuel : Nat) (chain : EVMChain)
    (address method : String) (args : List JSVal) (o : Nat → Attempt)
    (hk : 0 < k) (hfuel : 3 * k + 1 ≤ fuel) (hfail : ∀ n, o n = .fail) :
    query k chain address method args o fuel =
      if suppressed chain address then .value none (3 * k)
      else .thrown ⟨chain, method, args, address⟩ (3 * k) := by
  obtain ⟨extra, rfl⟩ : ∃ extra, fuel = 3 * k + 1 + extra :=
    ⟨fuel - (3 * k + 1), by omega⟩
  unfold query
  have h1 : 3 * k + 1 + extra = k + (2 * k + 1 + extra) := by omega
  rw [h1, queryLoop_allfail_pass k chain address method args o k (2 * k + 1 + extra)
    0 0 0 (by omega) hk (by omega) (fun t _ => hfail _)]
  have h2 : 2 * k + 1 + extra = k + (k + 1 + extra) := by omega
  rw [h2, queryLoop_allfail_pass k chain address method args o k (k + 1 + extra)
    1 0 (0 + k) (by omega) hk (by omega) (fun t _ => hfail _)]
  have h3 : k + 1 + extra = k + 1 + extra := rfl
  rw [queryLoop_allfail_last k chain address method args o k extra 0 (0 + k + k)
    (by omega) hk (fun t _ => hfail _)]
  have h4 : 0 + k + k + k = 3 * k := by omega
  rw [h4]

/-- Witness for C1, at the suppressed pair of the claim: chain poly, address
    0x8aaa5e259f74c8114e0a471d9f2adfc66bfe09ed, two endpoints, every attempt
    failing: the call resolves to the undefined result after exactly 6
    attempts and raises nothing. -/
theorem query_allfail_exhausts_witness :
    query 2 .poly "0x8aaa5e259f74c8114e0a471d9f2adfc66bfe09ed" "registry" []
      (fun _ => .fail) 7 = .value none 6 := by
  have h := query_allfail_exhausts 2 7 .poly "0x8aaa5e259f74c8114e0a471d9f2adfc66bfe09ed"
    "registry" [] (fun _ => .fail) (by omega) (by omega) (fun _ => rfl)
  rw [h]
  rw [if_pos (by decide : suppressed .poly "0x8aaa5e259f74c8114e0a471d9f2adfc66bfe09ed" = true)]

/-- Counterexample to claim C5 as stated. On a chain with one endpoint where
    every attempt succeeds but returns the falsy value 0, the loop condition
    !result stays true, the endpoint cursor and the pass counter never move,
    and query does not terminate within the claimed bound of k times r = 3
    attempts: with fuel for 4 iterations, and even with fuel for 100, the
    loop is still running, so the returned values of successful attempts do
    matter. -/
theorem query_falsy_success_diverges :
    query 1 .eth "0xtoken" "balanceOf" [] (fun _ => .succ (.num 0)) 4 = .diverged ∧
    query 1 .eth "0xtoken" "balanceOf" [] (fun _ => .succ (.num 0)) 100 = .diverged := by
  constructor <;> decide

/-- Divergence bound for the retry loop under truthy successes: from any
    mid-loop state the loop finishes within the remaining attempt budget
    (retry limit minus errors passes of k endpoints, minus the cursor
    offset), and the attempt count of the result stays within that budget. -/
theorem queryLoop_truthy_bound (k : Nat) (c : EVMChain) (a m : String) (ar : List JSVal)
    (o : Nat → Attempt) (htruthy : ∀ n v, o n = .succ v → v.truthy = true) :
    ∀ fuel e i attempt, i < k → e < 3 → (3 - e) * k - i + 1 ≤ fuel →
    queryLoop k c a m ar o fuel none e i attempt ≠ .diverged ∧
    (queryLoop k c a m ar o fuel none e i attempt).attempts ≤
      attempt + ((3 - e) * k - i) := by
  intro fuel
  induction fuel with
  | zero =>
    intro e i attempt hi he hf
    have h2 : k ≤ (3 - e) * k := Nat.le_mul_of_pos_left k (by omega)
    omega
  | succ fuel ih =>
    intro e i attempt hi he hf
    have hkpos : 0 < k := by omega
    have hμ : k ≤ (3 - e) * k := Nat.le_mul_of_pos_left k (by omega)
    have hemax : e < maxQueryRetries := by rw [maxQueryRetries_eq]; omega
    cases hv : o attempt with
    | succ v =>
      have ht := htruthy attempt v hv
      obtain ⟨f, rfl⟩ : ∃ f, fuel = f + 1 := ⟨fuel - 1, by omega⟩
      have hs := queryLoop_truthy_success k c a m ar o f e i attempt v hemax hv ht
      have hrw : f + 1 + 1 = f + 2 := by omega
      rw [hrw, hs]
      refine ⟨by simp, ?_⟩
      simp only [QueryResult.attempts]
      omega
    | fail =>
      by_cases hk : k ≤ i + 1
      · by_cases he2 : maxQueryRetries ≤ e + 1
        · have hstep := queryLoop_fail_exhaust k c a m ar o fuel none e i attempt rfl
            hemax hv hk he2
          rw [hstep]
          rw [maxQueryRetries_eq] at he2
          by_cases hsup : suppressed c a
          · rw [if_pos hsup]
            obtain ⟨f, rfl⟩ : ∃ f, fuel = f + 1 := ⟨fuel - 1, by omega⟩
            have hexit := queryLoop_exit k c a m ar o f none (e + 1) (i + 1) (attempt + 1)
              (by simp [jsNot, maxQueryRetries_eq]; omega)
            rw [hexit]
            refine ⟨by simp, ?_⟩
            simp only [QueryResult.attempts]
            omega
          · rw [if_neg hsup]
            refine ⟨by simp, ?_⟩
            simp only [QueryResult.attempts]
            omega
        · have hstep := queryLoop_fail_reset k c a m ar o fuel none e i attempt rfl
            hemax hv hk he2
          rw [hstep]
          rw [maxQueryRetries_eq] at he2
          have hlink : (3 - e) * k = (3 - (e + 1)) * k + k := by
            rw [show 3 - e = 3 - (e + 1) + 1 from by omega, Nat.add_mul, Nat.one_mul]
          have hrec := ih (e + 1) 0 (attempt + 1) hkpos (by omega) (by omega)
          exact ⟨hrec.1, by omega⟩
      · have hstep := queryLoop_fail_next k c a m ar o fuel none e i attempt rfl
          hemax hv hk
        rw [hstep]
        have hrec := ih e (i + 1) (attempt + 1) (by omega) he (by omega)
        exact ⟨hrec.1, by omega⟩

/-- Claim C5 (amended). Provided every successful attempt returns a truthy
    value, query terminates after at most k times 3 attempts on a chain with
    k endpoints: with fuel for 3k + 1 loop iterations it never runs out, its
    attempt count is at most 3k, and it stops at the first successful
    attempt, returning its value. The amendment restricts the successful
    values to truthy ones, which the counterexample shows is necessary. -/
theorem query_truthy_terminates (k fuel : Nat) (chain : EVMChain)
    (address method : String) (args : List JSVal) (o : Nat → Attempt)
    (hk : 0 < k) (hfuel : 3 * k + 1 ≤ fuel)
    (htruthy : ∀ n v, o n = .succ v → v.truthy = true) :
    query k chain address method args o fuel ≠ .diverged ∧
    (query k chain address method args o fuel).attempts ≤ 3 * k ∧
    (∀ j v, j < 3 * k → (∀ t, t < j → o t = .fail) → o j = .succ v →
      query k chain address method args o fuel = .value (some v) (j + 1)) := by
  have hbound := queryLoop_truthy_bound k chain address method args o htruthy fuel
    0 0 0 hk (by omega) (by simpa using hfuel)
  unfold query
  refine ⟨hbound.1, by simpa using hbound.2, ?_⟩
  intro j v hj hfails hsucc
  obtain ⟨q, s, hqs, hsk, hq3⟩ : ∃ q s, j = k * q + s ∧ s < k ∧ q < 3 := by
    refine ⟨j / k, j % k, (Nat.div_add_mod j k).symm, Nat.mod_lt _ hk,
      (Nat.div_lt_iff_lt_mul hk).mpr (by omega)⟩
  have htv := htruthy j v hsucc
  have hq03 : q = 0 ∨ q = 1 ∨ q = 2 := by omega
  rcases hq03 with hq0 | hq1 | hq2
  · -- first success inside the first pass
    subst hq0
    have hjs : j = s := by omega
    obtain ⟨rest, hrest⟩ : ∃ r, fuel = s + (r + 2) := ⟨fuel - s - 2, by omega⟩
    rw [hrest, queryLoop_allfail_advance k chain address method args o s (rest + 2)
      0 0 0 (by omega) (by rw [maxQueryRetries_eq]; omega)
      (fun t ht => by simpa using hfails t (by omega))]
    have hsucc2 : o (0 + s) = .succ v := by
      have h0 : 0 + s = j := by omega
      rw [h0, hsucc]
    have hlast := queryLoop_truthy_success k chain address method args o rest 0 (0 + s)
      (0 + s) v (by rw [maxQueryRetries_eq]; omega) hsucc2 htv
    rw [hlast]
    have h1 : 0 + s + 1 = j + 1 := by omega
    rw [h1]
  · -- one full failing pass, then the success inside the second pass
    subst hq1
    have hjs : j = k + s := by omega
    obtain ⟨rest, hrest⟩ : ∃ r, fuel = k + (s + (r + 2)) := ⟨fuel - k - s - 2, by omega⟩
    rw [hrest, queryLoop_allfail_pass k chain address method args o k (s + (rest + 2))
      0 0 0 (by omega) hk (by omega) (fun t ht => by simpa using hfails t (by omega))]
    rw [queryLoop_allfail_advance k chain address method args o s (rest + 2)
      1 0 (0 + k) (by omega) (by rw [maxQueryRetries_eq]; omega)
      (fun t ht => by
        have h2 := hfails (k + t) (by omega)
        have hrw : 0 + k + t = k + t := by omega
        rw [hrw, h2])]
    have hsucc2 : o (0 + k + s) = .succ v := by
      have h0 : 0 + k + s = j := by omega
      rw [h0, hsucc]
    have hlast := queryLoop_truthy_success k chain address method args o rest 1 (0 + s)
      (0 + k + s) v (by rw [maxQueryRetries_eq]; omega) hsucc2 htv
    rw [hlast]
    have h1 : 0 + k + s + 1 = j + 1 := by omega
    rw [h1]
  · -- two full failing passes, then the success inside the last pass
    subst hq2
    have hjs : j = k + k + s := by omega
    obtain ⟨rest, hrest⟩ : ∃ r, fuel = k + (k + (s + (r + 2))) :=
      ⟨fuel - k - k - s - 2, by omega⟩
    rw [hrest, queryLoop_allfail_pass k chain address method args o k (k + (s + (rest + 2)))
      0 0 0 (by omega) hk (by omega) (fun t ht => by simpa using hfails t (by omega))]
    rw [queryLoop_allfail_pass k chain address method args o k (s + (rest + 2))
      1 0 (0 + k) (by omega) hk (by omega)
      (fun t ht => by
        have h2 := hfails (k + t) (by omega)
        have hrw : 0 + k + t = k + t := by omega
        rw [hrw, h2])]
    rw [queryLoop_allfail_advance k chain address method args o s (rest + 2)
      2 0 (0 + k + k) (by omega) (by rw [maxQueryRetries_eq]; omega)
      (fun t ht => by
        have h2 := hfails (k + k + t) (by omega)
        have hrw : 0 + k + k + t = k + k + t := by omega
        rw [hrw, h2])]
    have hsucc2 : o (0 + k + k + s) = .succ v := by
      have h0 : 0 + k + k + s = j := by omega
      rw [h0, hsucc]
    have hlast := queryLoop_truthy_success k chain address method args o rest 2 (0 + s)
      (0 + k + k + s) v (by rw [maxQueryRetries_eq]; omega) hsucc2 htv
    rw [hlast]
    have h1 : 0 + k + k + s + 1 = j + 1 := by omega
    rw [h1]

/-- Witness for the amended C5: one endpoint, an immediately successful
    truthy attempt: query stops after exactly one attempt with that value. -/
theorem query_truthy_terminates_witness :
    query 1 .eth "0xtoken" "symbol" [] (fun _ => .succ (.str "TKN")) 4 =
      .value (some (.str "TKN")) 1 := by
  have h := query_truthy_terminates 1 4 .eth "0xtoken" "symbol" []
    (fun _ => .succ (.str "TKN")) (by omega) (by omega)
    (fun n v hv => by
      injection hv with h2
      rw [← h2]
      decide)
  exact h.2.2 0 (.str "TKN") (by omega) (fun t ht => absurd ht (by omega)) rfl

/- ===================== Lemmas about embedded records ===================== -/

theorem recGet_cons {α : Type} (p : String × α) (l : List (String × α)) (key : String) :
    recGet (p :: l) key = if p.1 = key then some p.2 else recGet l key := by
  by_cases h : p.1 = key
  · simp [recGet, List.find?, h]
  · simp [recGet, List.find?, h]

theorem recGet_map_overwrite_self {α : Type} (l : List (String × α)) (key : String) (v : α)
    (h : l.any (fun p => decide (p.1 = key)) = true) :
    recGet (l.map (fun p => if p.1 = key then (key, v) else p)) key = some v := by
  induction l with
  | nil => simp at h
  | cons p rest ih =>
    simp only [List.any_cons, Bool.or_eq_true, decide_eq_true_eq] at h
    by_cases hp : p.1 = key
    · simp [List.map_cons, hp, recGet_cons]
    · simp only [List.map_cons, if_neg hp]
      rw [recGet_cons, if_neg hp]
      exact ih (by simpa [hp] using h)

theorem recGet_map_overwrite_ne {α : Type} (l : List (String × α)) (key key' : String)
    (v : α) (hne : key' ≠ key) :
    recGet (l.map (fun p => if p.1 = key then (key, v) else p)) key' = recGet l key' := by
  induction l with
  | nil => rfl
  | cons p rest ih =>
    by_cases hp : p.1 = key
    · simp only [List.map_cons, if_pos hp]
      rw [recGet_cons, recGet_cons, if_neg (fun hc => hne hc.symm),
        if_neg (fun hc => hne (hc.symm.trans hp))]
      exact ih
    · simp only [List.map_cons, if_neg hp]
      rw [recGet_cons, recGet_cons]
      by_cases hc : p.1 = key'
      · simp [hc]
      · rw [if_neg hc, if_neg hc]
        exact ih

theorem recGet_recSet_self {α : Type} (l : List (String × α)) (key : String) (v : α) :
    recGet (recSet l key v) key = some v := by
  unfold recSet
  by_cases h : l.any (fun p => decide (p.1 = key)) = true
  · rw [if_pos h]
    exact recGet_map_overwrite_self l key v h
  · rw [if_neg h]
    induction l with
    | nil => simp [recGet_cons]
    | cons p rest ih =>
      simp only [List.any_cons, Bool.or_eq_true, decide_eq_true_eq] at h
      push_neg at h
      rw [List.cons_append, recGet_cons, if_neg h.1]
      exact ih (by simp [h.2])

theorem recGet_recSet_ne {α : Type} (l : List (String × α)) (key key' : String) (v : α)
    (hne : key' ≠ key) : recGet (recSet l key v) key' = recGet l key' := by
  unfold recSet
  by_cases h : l.any (fun p => decide (p.1 = key)) = true
  · rw [if_pos h]
    exact recGet_map_overwrite_ne l key key' v hne
  · rw [if_neg h]
    induction l with
    | nil => rw [List.nil_append, recGet_cons, if_neg (fun hc => hne hc.symm)]
    | cons p rest ih =>
      simp only [List.any_cons, Bool.or_eq_true, decide_eq_true_eq] at h
      push_neg at h
      rw [List.cons_append, recGet_cons, recGet_cons]
      by_cases hc : p.1 = key'
      · simp [hc]
      · rw [if_neg hc, if_neg hc]
        exact ih (by simp [h.2])

/- ===================== Demultiplexing characterizations ===================== -/

/-- The one-contract demultiplexer includes a reference exactly when some call
    with that reference succeeded, or it was already in the accumulator. -/
theorem oneContractDemux_key (l : List CallReturnContext) :
    ∀ (acc : List (String × List JSVal)) (ref : String),
      (recGet (oneContractDemux l acc) ref).isSome = true ↔
        ((∃ r ∈ l, r.success = true ∧ r.reference = ref) ∨
          (recGet acc ref).isSome = true) := by
  induction l with
  | nil =>
    intro acc ref
    simp [oneContractDemux]
  | cons r rest ih =>
    intro acc ref
    by_cases hs : r.success = true
    · simp only [oneContractDemux, if_pos hs]
      rw [ih]
      by_cases hr : r.reference = ref
      · subst hr
        constructor
        · intro _
          exact Or.inl ⟨r, List.mem_cons_self r rest, hs, rfl⟩
        · intro _
          refine Or.inr ?_
          rw [recGet_recSet_self]
          rfl
      · rw [recGet_recSet_ne _ _ _ _ (fun hc => hr hc.symm)]
        constructor
        · rintro (⟨x, hx, hxs, hxr⟩ | hacc)
          · exact Or.inl ⟨x, List.mem_cons_of_mem _ hx, hxs, hxr⟩
          · exact Or.inr hacc
        · rintro (⟨x, hx, hxs, hxr⟩ | hacc)
          · rcases List.mem_cons.mp hx with rfl | hx2
            · exact absurd hxr hr
            · exact Or.inl ⟨x, hx2, hxs, hxr⟩
          · exact Or.inr hacc
    · simp only [oneContractDemux, if_neg hs]
      rw [ih]
      constructor
      · rintro (⟨x, hx, hxs, hxr⟩ | hacc)
        · exact Or.inl ⟨x, List.mem_cons_of_mem _ hx, hxs, hxr⟩
        · exact Or.inr hacc
      · rintro (⟨x, hx, hxs, hxr⟩ | hacc)
        · rcases List.mem_cons.mp hx with rfl | hx2
          · exact absurd hxs hs
          · exact Or.inl ⟨x, hx2, hxs, hxr⟩
        · exact Or.inr hacc

/-- The one-method demultiplexer includes a contract exactly when its response
    entry exists, has a first call, and that call succeeded, or the contract
    was already in the accumulator. -/
theorem oneMethodDemux_key (resp : String → Option ContractCallReturn) :
    ∀ (contracts : List String) (acc out : List (String × List JSVal)),
      oneMethodDemux resp contracts acc = .ok out →
      ∀ c, (recGet out c).isSome = true ↔
        ((∃ cr r, c ∈ contracts ∧ resp c = some cr ∧
            cr.callsReturnContext.head? = some r ∧ r.success = true) ∨
          (recGet acc c).isSome = true) := by
  intro contracts
  induction contracts with
  | nil =>
    intro acc out h c
    simp only [oneMethodDemux] at h
    injection h with h
    subst h
    simp
  | cons c0 rest ih =>
    intro acc out h c
    cases hr : resp c0 with
    | none =>
      simp only [oneMethodDemux, hr] at h
      exact absurd h (by simp)
    | some cr =>
      simp only [oneMethodDemux, hr] at h
      cases hh : cr.callsReturnContext.head? with
      | some r0 =>
        simp only [hh] at h
        by_cases hs : r0.success = true
        · rw [if_pos hs] at h
          rw [ih _ _ h c]
          by_cases hc : c = c0
          · subst hc
            constructor
            · intro _
              exact Or.inl ⟨cr, r0, List.mem_cons_self _ _, hr, hh, hs⟩
            · intro _
              refine Or.inr ?_
              rw [recGet_recSet_self]
              rfl
          · rw [recGet_recSet_ne _ _ _ _ hc]
            constructor
            · rintro (⟨cr2, r2, hmem, h1, h2, h3⟩ | hacc)
              · exact Or.inl ⟨cr2, r2, List.mem_cons_of_mem _ hmem, h1, h2, h3⟩
              · exact Or.inr hacc
            · rintro (⟨cr2, r2, hmem, h1, h2, h3⟩ | hacc)
              · rcases List.mem_cons.mp hmem with rfl | hmem2
                · exact absurd rfl hc
                · exact Or.inl ⟨cr2, r2, hmem2, h1, h2, h3⟩
              · exact Or.inr hacc
        · rw [if_neg hs] at h
          rw [ih _ _ h c]
          constructor
          · rintro (⟨cr2, r2, hmem, h1, h2, h3⟩ | hacc)
            · exact Or.inl ⟨cr2, r2, List.mem_cons_of_mem _ hmem, h1, h2, h3⟩
            · exact Or.inr hacc
          · rintro (⟨cr2, r2, hmem, h1, h2, h3⟩ | hacc)
            · rcases List.mem_cons.mp hmem with rfl | hmem2
              · rw [hr] at h1
                injection h1 with h1
                subst h1
                rw [hh] at h2
                injection h2 with h2
                subst h2
                exact absurd h3 hs
              · exact Or.inl ⟨cr2, r2, hmem2, h1, h2, h3⟩
            · exact Or.inr hacc
      | none =>
        simp only [hh] at h
        rw [ih _ _ h c]
        constructor
        · rintro (⟨cr2, r2, hmem, h1, h2, h3⟩ | hacc)
          · exact Or.inl ⟨cr2, r2, List.mem_cons_of_mem _ hmem, h1, h2, h3⟩
          · exact Or.inr hacc
        · rintro (⟨cr2, r2, hmem, h1, h2, h3⟩ | hacc)
          · rcases List.mem_cons.mp hmem with rfl | hmem2
            · rw [hr] at h1
              injection h1 with h1
              subst h1
              rw [hh] at h2
              exact absurd h2 (by simp)
            · exact Or.inl ⟨cr2, r2, hmem2, h1, h2, h3⟩
          · exact Or.inr hacc

/-- The inner complex demultiplexer includes every returned reference,
    regardless of the success flag. -/
theorem complexInner_key (l : List CallReturnContext) :
    ∀ (acc : List (String × List JSVal)) (ref : String),
      ((∃ r ∈ l, r.reference = ref) ∨ (recGet acc ref).isSome = true) →
      (recGet (complexInner l acc) ref).isSome = true := by
  induction l with
  | nil =>
    intro acc ref h
    rcases h with ⟨r, hrm, _⟩ | h
    · simp at hrm
    · simpa [complexInner] using h
  | cons r rest ih =>
    intro acc ref h
    simp only [complexInner]
    apply ih
    by_cases hc : r.reference = ref
    · subst hc
      refine Or.inr ?_
      rw [recGet_recSet_self]
      rfl
    · rcases h with ⟨x, hx, hxr⟩ | hacc
      · rcases List.mem_cons.mp hx with rfl | hx2
        · exact absurd hxr hc
        · exact Or.inl ⟨x, hx2, hxr⟩
      · refine Or.inr ?_
        rw [recGet_recSet_ne _ _ _ _ (fun h2 => hc h2.symm)]
        exact hacc

/-- The outer complex demultiplexer leaves contracts it does not visit
    untouched. -/
theorem complexDemux_frame (resp : String → Option ContractCallReturn) :
    ∀ (contracts : List String) (acc out : List (String × List (String × List JSVal))),
      complexDemux resp contracts acc = .ok out →
      ∀ c, ¬ c ∈ contracts → recGet out c = recGet acc c := by
  intro contracts
  induction contracts with
  | nil =>
    intro acc out h c _
    simp only [complexDemux] at h
    injection h with h
    subst h
    rfl
  | cons c0 rest ih =>
    intro acc out h c hc
    cases hr : resp c0 with
    | none =>
      simp only [complexDemux, hr] at h
      exact absurd h (by simp)
    | some cr =>
      simp only [complexDemux, hr] at h
      have hc0 : c ≠ c0 := fun hq => hc (hq ▸ List.mem_cons_self _ _)
      rw [ih _ _ h c (fun hm => hc (List.mem_cons_of_mem _ hm))]
      exact recGet_recSet_ne _ _ _ _ hc0

/-- Every visited contract with a response entry ends up mapped to the record
    of all its returned calls. -/
theorem complexDemux_key (resp : String → Option ContractCallReturn) :
    ∀ (contracts : List String) (acc out : List (String × List (String × List JSVal))),
      complexDemux resp contracts acc = .ok out →
      ∀ c, c ∈ contracts →
        ∃ cr, resp c = some cr ∧
          recGet out c = some (complexInner cr.callsReturnContext []) := by
  intro contracts
  induction contracts with
  | nil =>
    intro acc out h c hc
    simp at hc
  | cons c0 rest ih =>
    intro acc out h c hc
    cases hr : resp c0 with
    | none =>
      simp only [complexDemux, hr] at h
      exact absurd h (by simp)
    | some cr =>
      simp only [complexDemux, hr] at h
      by_cases hcrest : c ∈ rest
      · exact ih _ _ h c hcrest
      · rcases List.mem_cons.mp hc with rfl | h2
        · refine ⟨cr, hr, ?_⟩
          rw [complexDemux_frame resp rest _ _ h c hcrest]
          exact recGet_recSet_self _ _ _
        · exact absurd h2 hcrest

/-- A three-call batch response where the second call carries a false success
    flag, used as the concrete counterexample input. -/
def cexCalls : List CallReturnContext :=
  [⟨"call1", true, [.num 1]⟩, ⟨"call2", false, []⟩, ⟨"call3", true, [.num 3]⟩]

/-- A helper response holding cexCalls for the single contract 0xpool. -/
def cexResp : String → Option ContractCallReturn :=
  fun c => if c = "0xpool" then some ⟨cexCalls⟩ else none

/-- Counterexample to claim C2 as stated. In a batch of three calls where
    call 2 has a false per-call success flag, the many-methods-many-contracts
    variant multicallComplexQuery keeps the reference call2 in its returned
    mapping (it performs no success check), while the many-methods-one-contract
    variant omits it; so the omission behavior does not hold for all three
    variants. -/
theorem multicallComplexQuery_keeps_failed_calls :
    multicallComplexQuery ["0xpool"] cexResp =
      .ok [("0xpool", [("call1", [.num 1]), ("call2", []), ("call3", [.num 3])])] ∧
    recGet (multicallOneContractQuery cexCalls) "call2" = none := by
  constructor <;> rfl

/-- Claim C2 (amended). The one-method-many-contracts and the
    many-methods-one-contract variants omit every call whose per-call success
    flag is false and their mappings contain exactly the keys of the calls
    that succeeded; the many-methods-many-contracts variant instead includes
    a key for every returned call of every answered contract, regardless of
    the success flag. -/
theorem multicall_partial_failure_demux :
    (∀ (callsReturnContext : List CallReturnContext) (ref : String),
      (recGet (multicallOneContractQuery callsReturnContext) ref).isSome = true ↔
        ∃ r ∈ callsReturnContext, r.success = true ∧ r.reference = ref) ∧
    (∀ (contracts : List String) (resp : String → Option ContractCallReturn) out,
      multicallOneMethodQuery contracts resp = .ok out →
      ∀ c, (recGet out c).isSome = true ↔
        ∃ cr r, c ∈ contracts ∧ resp c = some cr ∧
          cr.callsReturnContext.head? = some r ∧ r.success = true) ∧
    (∀ (contracts : List String) (resp : String → Option ContractCallReturn) out,
      multicallComplexQuery contracts resp = .ok out →
      ∀ c, c ∈ contracts → ∀ cr, resp c = some cr →
        ∃ inner, recGet out c = some inner ∧
          ∀ r ∈ cr.callsReturnContext, (recGet inner r.reference).isSome = true) := by
  refine ⟨?_, ?_, ?_⟩
  · intro calls ref
    have h := oneContractDemux_key calls [] ref
    simpa [multicallOneContractQuery, recGet] using h
  · intro contracts resp out h c
    have h2 := oneMethodDemux_key resp contracts [] out h c
    simpa [recGet] using h2
  · intro contracts resp out h c hc cr hcr
    obtain ⟨cr2, hcr2, hout⟩ := complexDemux_key resp contracts [] out h c hc
    rw [hcr] at hcr2
    injection hcr2 with he
    subst he
    exact ⟨_, hout,
      fun r hrm => complexInner_key cr.callsReturnContext [] r.reference (Or.inl ⟨r, hrm, rfl⟩)⟩

/-- The batch response used by the witness: the first call succeeds, the
    second fails. -/
def wCalls : List CallReturnContext :=
  [⟨"a", true, [.num 1]⟩, ⟨"b", false, []⟩]

/-- The witness helper response holding wCalls for the contract 0xc. -/
def wResp : String → Option ContractCallReturn :=
  fun c => if c = "0xc" then some ⟨wCalls⟩ else none

/-- Witness for the amended C2, at concrete inputs: the succeeding reference
    is present for the omitting variants, and every reference, including the
    failed one, is present inside the complex variant result. -/
theorem multicall_partial_failure_demux_witness :
    (recGet (multicallOneContractQuery wCalls) "a").isSome = true ∧
    (∃ out, multicallOneMethodQuery ["0xc"] wResp = .ok out ∧
      (recGet out "0xc").isSome = true) ∧
    (∃ out inner, multicallComplexQuery ["0xc"] wResp = .ok out ∧
      recGet out "0xc" = some inner ∧ (recGet inner "b").isSome = true) := by
  obtain ⟨h1, h2, h3⟩ := multicall_partial_failure_demux
  refine ⟨?_, ?_, ?_⟩
  · exact (h1 wCalls "a").mpr ⟨⟨"a", true, [.num 1]⟩, by simp [wCalls], rfl, rfl⟩
  · refine ⟨_, rfl, ?_⟩
    exact (h2 ["0xc"] wResp _ rfl "0xc").mpr
      ⟨⟨wCalls⟩, ⟨"a", true, [.num 1]⟩, by simp, rfl, rfl, rfl⟩
  · obtain ⟨inner, hi, hall⟩ := h3 ["0xc"] wResp _ rfl "0xc" (by simp) ⟨wCalls⟩ rfl
    exact ⟨_, inner, rfl, hi, hall ⟨"b", false, []⟩ (by simp [wCalls])⟩

/- ===================== Pipeline evaluation lemmas ===================== -/

/-- A fully successful helper response to the symbol and decimals calls. -/
def tokenRespData (sym : String) (dec : Nat) : List CallReturnContext :=
  [⟨"symbol", true, [.str sym]⟩, ⟨"decimals", true, [.num (dec : ℚ)]⟩]

/-- A fully successful helper response to the six LP calls. -/
def lpRespData (sym : String) (dec : Nat) (r0 r1 ts : ℤ) (a0 a1 : String) :
    List CallReturnContext :=
  [⟨"symbol", true, [.str sym]⟩, ⟨"decimals", true, [.num (dec : ℚ)]⟩,
   ⟨"reserves", true, [.big r0, .big r1]⟩, ⟨"totalSupply", true, [.big ts]⟩,
   ⟨"token0", true, [.str a0]⟩, ⟨"token1", true, [.str a1]⟩]

theorem asStr_str (s : String) : JSVal.asStr (.str s) = s := rfl

theorem asNat_natCast (dec : Nat) : JSVal.asNat (.num (dec : ℚ)) = dec := by
  simp [JSVal.asNat]

theorem parseBN_big (n : ℤ) : parseBN (.big n) = (n : ℚ) := rfl

theorem tokenResp_symbol (sym : String) (dec : Nat) :
    recGet (multicallOneContractQuery (tokenRespData sym dec)) "symbol" =
      some [.str sym] := rfl

theorem tokenResp_decimals (sym : String) (dec : Nat) :
    recGet (multicallOneContractQuery (tokenRespData sym dec)) "decimals" =
      some [.num (dec : ℚ)] := rfl

theorem lpResp_symbol (sym : String) (dec : Nat) (r0 r1 ts : ℤ) (a0 a1 : String) :
    recGet (multicallOneContractQuery (lpRespData sym dec r0 r1 ts a0 a1)) "symbol" =
      some [.str sym] := rfl

theorem lpResp_decimals (sym : String) (dec : Nat) (r0 r1 ts : ℤ) (a0 a1 : String) :
    recGet (multicallOneContractQuery (lpRespData sym dec r0 r1 ts a0 a1)) "decimals" =
      some [.num (dec : ℚ)] := rfl

theorem lpResp_reserves (sym : String) (dec : Nat) (r0 r1 ts : ℤ) (a0 a1 : String) :
    recGet (multicallOneContractQuery (lpRespData sym dec r0 r1 ts a0 a1)) "reserves" =
      some [.big r0, .big r1] := rfl

theorem lpResp_totalSupply (sym : String) (dec : Nat) (r0 r1 ts : ℤ) (a0 a1 : String) :
    recGet (multicallOneContractQuery (lpRespData sym dec r0 r1 ts a0 a1)) "totalSupply" =
      some [.big ts] := rfl

theorem lpResp_token0 (sym : String) (dec : Nat) (r0 r1 ts : ℤ) (a0 a1 : String) :
    recGet (multicallOneContractQuery (lpRespData sym dec r0 r1 ts a0 a1)) "token0" =
      some [.str a0] := rfl

theorem lpResp_token1 (sym : String) (dec : Nat) (r0 r1 ts : ℤ) (a0 a1 : String) :
    recGet (multicallOneContractQuery (lpRespData sym dec r0 r1 ts a0 a1)) "token1" =
      some [.str a1] := rfl

/-- Evaluation of addToken on a catalog hit for a non-sentinel address: no
    multicall is issued and the catalog metadata is used. -/
theorem addToken_tracked (env : Env) (chain : EVMChain) (location status address : String)
    (rawBalance : ℚ) (owner : String) (t : TokenData)
    (hsent : jsToLower address ≠ defaultAddress)
    (htrack : getTrackedTokenInfo env chain address = some t) :
    addToken env chain location status address rawBalance owner =
      ([], .ok { type := "token", chain := chain, location := location, status := status,
                 owner := owner, symbol := t.symbol, address := address,
                 balance := rawBalance / 10 ^ t.decimals,
                 price := env.getTokenPrice chain address t.decimals,
                 logo := t.logo }) := by
  unfold addToken
  rw [if_neg hsent, htrack]

/-- Evaluation of addToken on a catalog miss: exactly one symbol and decimals
    multicall is issued against the token contract. -/
theorem addToken_miss (env : Env) (chain : EVMChain) (location status address : String)
    (rawBalance : ℚ) (owner sym : String) (dec : Nat)
    (hsent : jsToLower address ≠ defaultAddress)
    (htrack : getTrackedTokenInfo env chain address = none)
    (hresp : env.mcOneContract chain address tokenCalls = tokenRespData sym dec) :
    addToken env chain location status address rawBalance owner =
      ([⟨chain, address, tokenCalls⟩],
       .ok { type := "token", chain := chain, location := location, status := status,
             owner := owner, symbol := sym, address := address,
             balance := rawBalance / 10 ^ dec,
             price := env.getTokenPrice chain address dec,
             logo := getTokenLogo env chain sym }) := by
  unfold addToken
  rw [if_neg hsent, htrack, hresp]
  simp only [tokenResp_symbol, tokenResp_decimals, List.headD_cons, asStr_str, asNat_natCast]

/-- The requests issued by addToken on a catalog miss, for any helper
    response: exactly one. -/
theorem addToken_miss_log (env : Env) (chain : EVMChain) (location status address : String)
    (rawBalance : ℚ) (owner : String)
    (hsent : jsToLower address ≠ defaultAddress)
    (htrack : getTrackedTokenInfo env chain address = none) :
    (addToken env chain location status address rawBalance owner).1 =
      [⟨chain, address, tokenCalls⟩] := by
  unfold addToken
  rw [if_neg hsent, htrack]
  split
  · rename_i t heq
    exact absurd heq (by simp)
  · lift_lets
    intro M
    rcases recGet M "symbol" with _ | sv <;> rcases recGet M "decimals" with _ | dv <;> rfl

/-- Evaluation of addDebtToken on a catalog hit for a non-sentinel address. -/
theorem addDebtToken_tracked (env : Env) (chain : EVMChain) (location address : String)
    (rawBalance : ℚ) (owner : String) (t : TokenData)
    (hsent : jsToLower address ≠ defaultAddress)
    (htrack : getTrackedTokenInfo env chain address = some t) :
    addDebtToken env chain location address rawBalance owner =
      ([], .ok { type := "debt", chain := chain, location := location, status := "borrowed",
                 owner := owner, symbol := t.symbol, address := address,
                 balance := rawBalance / 10 ^ t.decimals,
                 price := env.getTokenPrice chain address t.decimals,
                 logo := t.logo }) := by
  unfold addDebtToken
  rw [if_neg hsent, htrack]

/-- Evaluation of addDebtToken on a catalog miss. -/
theorem addDebtToken_miss (env : Env) (chain : EVMChain) (location address : String)
    (rawBalance : ℚ) (owner sym : String) (dec : Nat)
    (hsent : jsToLower address ≠ defaultAddress)
    (htrack : getTrackedTokenInfo env chain address = none)
    (hresp : env.mcOneContract chain address tokenCalls = tokenRespData sym dec) :
    addDebtToken env chain location address rawBalance owner =
      ([⟨chain, address, tokenCalls⟩],
       .ok { type := "debt", chain := chain, location := location, status := "borrowed",
             owner := owner, symbol := sym, address := address,
             balance := rawBalance / 10 ^ dec,
             price := env.getTokenPrice chain address dec,
             logo := getTokenLogo env chain sym }) := by
  unfold addDebtToken
  rw [if_neg hsent, htrack, hresp]
  simp only [tokenResp_symbol, tokenResp_decimals, List.headD_cons, asStr_str, asNat_natCast]

/-- The requests issued by addDebtToken on a catalog miss: exactly one. -/
theorem addDebtToken_miss_log (env : Env) (chain : EVMChain) (location address : String)
    (rawBalance : ℚ) (owner : String)
    (hsent : jsToLower address ≠ defaultAddress)
    (htrack : getTrackedTokenInfo env chain address = none) :
    (addDebtToken env chain location address rawBalance owner).1 =
      [⟨chain, address, tokenCalls⟩] := by
  unfold addDebtToken
  rw [if_neg hsent, htrack]
  split
  · rename_i t heq
    exact absurd heq (by simp)
  · lift_lets
    intro M
    rcases recGet M "symbol" with _ | sv <;> rcases recGet M "decimals" with _ | dv <;> rfl

/-- Evaluation of the underlying resolution on a catalog hit. -/
theorem resolveUnderlying_tracked (env : Env) (chain : EVMChain) (address : String)
    (t : TokenData) (h : getTrackedTokenInfo env chain address = some t) :
    resolveUnderlying env chain address = ([], .ok (t.symbol, t.decimals)) := by
  unfold resolveUnderlying
  rw [h]

/-- Evaluation of the underlying resolution on a catalog miss. -/
theorem resolveUnderlying_miss (env : Env) (chain : EVMChain) (address sym : String)
    (dec : Nat) (h : getTrackedTokenInfo env chain address = none)
    (hresp : env.mcOneContract chain address tokenCalls = tokenRespData sym dec) :
    resolveUnderlying env chain address =
      ([⟨chain, address, tokenCalls⟩], .ok (sym, dec)) := by
  unfold resolveUnderlying
  rw [h, hresp]
  simp only [tokenResp_symbol, tokenResp_decimals, List.headD_cons, asStr_str, asNat_natCast]

/-- Evaluation of addLPToken on a fully successful LP response with both
    underlying tokens resolved from the catalog. -/
theorem addLPToken_eval (env : Env) (chain : EVMChain) (location status address : String)
    (rawBalance : ℚ) (owner sym : String) (dec : Nat) (r0 r1 ts : ℤ) (a0 a1 : String)
    (t0 t1 : TokenData)
    (hresp : env.mcOneContract chain address lpCalls = lpRespData sym dec r0 r1 ts a0 a1)
    (h0 : getTrackedTokenInfo env chain a0 = some t0)
    (h1 : getTrackedTokenInfo env chain a1 = some t1) :
    addLPToken env chain location status address rawBalance owner =
      ([⟨chain, address, lpCalls⟩],
       .ok { type := "lpToken", chain := chain, location := location, status := status,
             owner := owner, symbol := sym, address := address,
             balance := rawBalance / 10 ^ dec,
             token0 :=
               { symbol := t0.symbol, address := a0,
                 balance := ((r0 : ℚ) / 10 ^ t0.decimals) *
                   ((rawBalance / 10 ^ dec) / ((ts : ℚ) / 10 ^ dec)),
                 price := env.getTokenPrice chain a0 t0.decimals,
                 logo := getTokenLogo env chain t0.symbol },
             token1 :=
               { symbol := t1.symbol, address := a1,
                 balance := ((r1 : ℚ) / 10 ^ t1.decimals) *
                   ((rawBalance / 10 ^ dec) / ((ts : ℚ) / 10 ^ dec)),
                 price := env.getTokenPrice chain a1 t1.decimals,
                 logo := getTokenLogo env chain t1.symbol } }) := by
  unfold addLPToken
  rw [hresp]
  simp only [lpResp_symbol, lpResp_decimals, lpResp_reserves, lpResp_totalSupply,
    lpResp_token0, lpResp_token1, List.headD_cons, List.getD_cons_succ, List.getD_cons_zero,
    asStr_str, asNat_natCast, parseBN_big,
    resolveUnderlying_tracked env chain a0 t0 h0, resolveUnderlying_tracked env chain a1 t1 h1,
    List.append_nil]

/-- Evaluation of addXToken when the catalog has an entry for the derivative
    token address: the underlying metadata is taken from that entry and no
    multicall is issued against the underlying contract. -/
theorem addXToken_tracked_eval (env : Env) (chain : EVMChain)
    (location status address : String) (rawBalance : ℚ)
    (owner underlyingAddress : String) (underlyingRawBalance : ℚ)
    (sym : String) (dec : Nat) (t : TokenData)
    (hresp : env.mcOneContract chain address tokenCalls = tokenRespData sym dec)
    (htrack : getTrackedTokenInfo env chain address = some t) :
    addXToken env chain location status address rawBalance owner
        underlyingAddress underlyingRawBalance =
      ([⟨chain, address, tokenCalls⟩],
       .ok { type := "xToken", chain := chain, location := location, status := status,
             owner := owner, symbol := sym, address := address,
             balance := rawBalance / 10 ^ dec,
             logo := getTokenLogo env chain sym,
             underlyingToken :=
               { symbol := t.symbol, address := underlyingAddress,
                 balance := underlyingRawBalance / 10 ^ t.decimals,
                 price := env.getTokenPrice chain underlyingAddress t.decimals,
                 logo := t.logo } }) := by
  unfold addXToken
  rw [hresp]
  simp only [tokenResp_symbol, tokenResp_decimals, List.headD_cons, asStr_str,
    asNat_natCast, htrack]

/-- The concrete environment exhibiting the addXToken catalog slip: the avax
    catalog tracks the derivative token address 0xaaaa itself (symbol XJOE,
    8 decimals) and has no entry for the underlying address 0xbbbb; the
    multicall response for 0xaaaa decodes symbol xJOE with 18 decimals. -/
def envX : Env :=
  { chainTokenData := fun c =>
      if c = EVMChain.avax then
        some { tokens := [{ address := "0xaaaa", symbol := "XJOE",
                            logo := "logoX", decimals := 8 }],
               logos := [] }
      else none,
    getTokenPrice := fun _ _ _ => none,
    mcOneContract := fun _ a _ => if a = "0xaaaa" then tokenRespData "xJOE" 18 else [],
    mcOneMethod := fun _ _ _ _ _ => none }

/-- Claim C6 (evaluation of the code at a failing input). The avax catalog of
    envX has no entry for the underlying address 0xbbbb, so per the claim the
    underlying metadata resolution should miss and issue a batch call against
    0xbbbb; instead addXToken consults the catalog at the derivative address
    0xaaaa, finds the entry tracked there, issues no batch call against the
    underlying, and copies that entry (symbol XJOE, logo logoX, and 8
    decimals, which also determine the nested balance) into the underlying
    field of the result. -/
theorem addXToken_underlying_catalog_bug :
    addXToken envX .avax "axial" "staked" "0xaaaa" 5 "0xme" "0xbbbb" 7 =
      ([⟨.avax, "0xaaaa", tokenCalls⟩],
       .ok { type := "xToken", chain := .avax, location := "axial", status := "staked",
             owner := "0xme", symbol := "xJOE", address := "0xaaaa",
             balance := 5 / 10 ^ 18, logo := defaultTokenLogo,
             underlyingToken :=
               { symbol := "XJOE", address := "0xbbbb", balance := 7 / 10 ^ 8,
                 price := none, logo := "logoX" } }) ∧
    getTrackedTokenInfo envX .avax "0xbbbb" = none := by
  constructor
  · rfl
  · rfl

/-- Claim C3. Each underlying share built by addLPToken satisfies
    share = reserve times (holder LP balance over total supply), with every
    quantity decimal-normalized exactly as the source computes it; and when
    the holder balance equals a nonzero total supply, the shares equal the
    full reserves exactly. -/
theorem addLPToken_share_invariant (env : Env) (chain : EVMChain)
    (location status address : String) (rawBalance : ℚ) (owner sym : String)
    (dec : Nat) (r0 r1 ts : ℤ) (a0 a1 : String) (t0 t1 : TokenData)
    (hresp : env.mcOneContract chain address lpCalls = lpRespData sym dec r0 r1 ts a0 a1)
    (h0 : getTrackedTokenInfo env chain a0 = some t0)
    (h1 : getTrackedTokenInfo env chain a1 = some t1) :
    ∃ lp : LPToken,
      addLPToken env chain location status address rawBalance owner =
        ([⟨chain, address, lpCalls⟩], .ok lp) ∧
      lp.token0.balance =
        ((r0 : ℚ) / 10 ^ t0.decimals) * ((rawBalance / 10 ^ dec) / ((ts : ℚ) / 10 ^ dec)) ∧
      lp.token1.balance =
        ((r1 : ℚ) / 10 ^ t1.decimals) * ((rawBalance / 10 ^ dec) / ((ts : ℚ) / 10 ^ dec)) ∧
      (rawBalance = (ts : ℚ) → (ts : ℚ) ≠ 0 →
        lp.token0.balance = (r0 : ℚ) / 10 ^ t0.decimals ∧
        lp.token1.balance = (r1 : ℚ) / 10 ^ t1.decimals) := by
  refine ⟨_, addLPToken_eval env chain location status address rawBalance owner sym dec
    r0 r1 ts a0 a1 t0 t1 hresp h0 h1, rfl, rfl, ?_⟩
  intro hb hts
  have hsup : (ts : ℚ) / 10 ^ dec ≠ 0 :=
    div_ne_zero hts (pow_ne_zero _ (by norm_num))
  constructor
  · show ((r0 : ℚ) / 10 ^ t0.decimals) *
      ((rawBalance / 10 ^ dec) / ((ts : ℚ) / 10 ^ dec)) = _
    rw [hb, div_self hsup, mul_one]
  · show ((r1 : ℚ) / 10 ^ t1.decimals) *
      ((rawBalance / 10 ^ dec) / ((ts : ℚ) / 10 ^ dec)) = _
    rw [hb, div_self hsup, mul_one]

/-- The concrete environment of the C3 witness: an LP at 0xlp with reserves
    1000 and 2000, total supply 100, and both underlying tokens tracked with
    0 decimals. -/
def envC3 : Env :=
  { chainTokenData := fun c =>
      if c = EVMChain.eth then
        some { tokens := [{ address := "0xa", symbol := "AAA", logo := "la", decimals := 0 },
                          { address := "0xb", symbol := "BBB", logo := "lb", decimals := 0 }],
               logos := [] }
      else none,
    getTokenPrice := fun _ _ _ => none,
    mcOneContract := fun _ a _ =>
      if a = "0xlp" then lpRespData "LP" 0 1000 2000 100 "0xa" "0xb" else [],
    mcOneMethod := fun _ _ _ _ _ => none }

/-- Witness for C3: with reserves 1000 and 2000, total supply 100 and holder
    balance 10, the underlying balances are 100 and 200. -/
theorem addLPToken_share_invariant_witness :
    ∃ lp : LPToken,
      addLPToken envC3 .eth "wallet" "none" "0xlp" 10 "0xme" =
        ([⟨.eth, "0xlp", lpCalls⟩], .ok lp) ∧
      lp.token0.balance = 100 ∧ lp.token1.balance = 200 := by
  obtain ⟨lp, heq, hb0, hb1, _⟩ := addLPToken_share_invariant envC3 .eth "wallet" "none"
    "0xlp" 10 "0xme" "LP" 0 1000 2000 100 "0xa" "0xb"
    ⟨"0xa", "AAA", "la", 0⟩ ⟨"0xb", "BBB", "lb", 0⟩ rfl (by decide) (by decide)
  refine ⟨lp, heq, ?_, ?_⟩
  · rw [hb0]
    norm_num
  · rw [hb1]
    norm_num

/-- Claim C4. For a non-sentinel address: on a catalog hit, addToken and
    addDebtToken issue no batch call and use the catalog symbol, decimals and
    logo; on a catalog miss, each issues exactly one symbol-and-decimals
    batch call against the token contract. -/
theorem tracked_token_metadata_precedence (env : Env) (chain : EVMChain)
    (location status address : String) (rawBalance : ℚ) (owner : String)
    (hsent : jsToLower address ≠ defaultAddress) :
    (∀ t : TokenData, getTrackedTokenInfo env chain address = some t →
      addToken env chain location status address rawBalance owner =
        ([], .ok { type := "token", chain := chain, location := location, status := status,
                   owner := owner, symbol := t.symbol, address := address,
                   balance := rawBalance / 10 ^ t.decimals,
                   price := env.getTokenPrice chain address t.decimals,
                   logo := t.logo }) ∧
      addDebtToken env chain location address rawBalance owner =
        ([], .ok { type := "debt", chain := chain, location := location,
                   status := "borrowed", owner := owner, symbol := t.symbol,
                   address := address, balance := rawBalance / 10 ^ t.decimals,
                   price := env.getTokenPrice chain address t.decimals,
                   logo := t.logo })) ∧
    (getTrackedTokenInfo env chain address = none →
      (addToken env chain location status address rawBalance owner).1 =
        [⟨chain, address, tokenCalls⟩] ∧
      (addDebtToken env chain location address rawBalance owner).1 =
        [⟨chain, address, tokenCalls⟩]) := by
  constructor
  · intro t ht
    exact ⟨addToken_tracked env chain location status address rawBalance owner t hsent ht,
      addDebtToken_tracked env chain location address rawBalance owner t hsent ht⟩
  · intro hn
    exact ⟨addToken_miss_log env chain location status address rawBalance owner hsent hn,
      addDebtToken_miss_log env chain location address rawBalance owner hsent hn⟩

/-- The concrete environment of the C4 witness: 0xt is tracked on eth with 6
    decimals, 0xu is not tracked, and every symbol-and-decimals multicall
    decodes UUU with 12 decimals. -/
def envC4 : Env :=
  { chainTokenData := fun c =>
      if c = EVMChain.eth then
        some { tokens := [{ address := "0xt", symbol := "TTT", logo := "lt", decimals := 6 }],
               logos := [] }
      else none,
    getTokenPrice := fun _ _ _ => none,
    mcOneContract := fun _ _ _ => tokenRespData "UUU" 12,
    mcOneMethod := fun _ _ _ _ _ => none }

/-- Witness for C4: the tracked address uses catalog metadata with no batch
    call, the untracked address issues exactly one. -/
theorem tracked_token_metadata_precedence_witness :
    addToken envC4 .eth "wallet" "none" "0xt" 10 "0xme" =
      ([], .ok { type := "token", chain := .eth, location := "wallet", status := "none",
                 owner := "0xme", symbol := "TTT", address := "0xt",
                 balance := 10 / 10 ^ 6, price := none, logo := "lt" }) ∧
    (addToken envC4 .eth "wallet" "none" "0xu" 10 "0xme").1 =
      [⟨.eth, "0xu", tokenCalls⟩] := by
  have h := tracked_token_metadata_precedence envC4 .eth "wallet" "none" "0xt" 10 "0xme"
    (by decide)
  have h2 := tracked_token_metadata_precedence envC4 .eth "wallet" "none" "0xu" 10 "0xme"
    (by decide)
  constructor
  · have h1 := (h.1 ⟨"0xt", "TTT", "lt", 6⟩ (by decide)).1
    rw [h1]
    rfl
  · exact (h2.2 (by decide)).1

/-- Normalizing the proportional LP share: reserve over its decimals, scaled
    by the ratio of two quantities normalized by the same power, equals the
    raw proportional quantity over the underlying decimals. -/
theorem share_normalized (r raw ts p q : ℚ) (hq : q ≠ 0) :
    r / p * (raw / q / (ts / q)) = r * raw / ts / p := by
  rcases eq_or_ne ts 0 with h | h
  · simp [h]
  · have hkey : raw / q / (ts / q) = raw / ts := by
      field_simp
    rw [hkey]
    ring

/-- The environment shared by the C7 and C9 witnesses: every price lookup is
    absent, 0xt is tracked with 6 decimals, 0xa and 0xb are tracked with 0
    decimals, 0xu is untracked, LP-shaped multicalls decode the 1000, 2000,
    100 pool and symbol-and-decimals multicalls decode UUU with 12
    decimals. -/
def envC7 : Env :=
  { chainTokenData := fun c =>
      if c = EVMChain.eth then
        some { tokens := [{ address := "0xt", symbol := "TTT", logo := "lt", decimals := 6 },
                          { address := "0xa", symbol := "AAA", logo := "la", decimals := 0 },
                          { address := "0xb", symbol := "BBB", logo := "lb", decimals := 0 }],
               logos := [] }
      else none,
    getTokenPrice := fun _ _ _ => none,
    mcOneContract := fun _ _ calls =>
      if calls = lpCalls then lpRespData "LP" 0 1000 2000 100 "0xa" "0xb"
      else tokenRespData "UUU" 12,
    mcOneMethod := fun _ _ _ _ _ => none }

/-- Claim C7. When every price oracle lookup resolves to absent, each of the
    five build operations still returns a complete record with every other
    field populated; only the price fields are absent and construction never
    fails. -/
theorem price_failure_degrades_to_absent (env : Env) (chain : EVMChain)
    (location status address : String) (rawBalance : ℚ)
    (owner underlyingAddress : String) (underlyingRawBalance : ℚ)
    (sym sym2 : String) (dec dec2 : Nat) (r0 r1 ts : ℤ) (a0 a1 : String)
    (t t0 t1 : TokenData)
    (hprice : ∀ c a d, env.getTokenPrice c a d = none)
    (hsent : jsToLower address ≠ defaultAddress)
    (htrack : getTrackedTokenInfo env chain address = some t)
    (hlp : env.mcOneContract chain address lpCalls = lpRespData sym dec r0 r1 ts a0 a1)
    (htok : env.mcOneContract chain address tokenCalls = tokenRespData sym2 dec2)
    (h0 : getTrackedTokenInfo env chain a0 = some t0)
    (h1 : getTrackedTokenInfo env chain a1 = some t1) :
    addNativeToken env chain rawBalance owner =
      { type := "nativeToken", chain := chain, location := "wallet", status := "none",
        owner := owner, symbol := getNativeTokenSymbol chain, address := defaultAddress,
        balance := rawBalance / 10 ^ (18 : Nat), price := none,
        logo := getTokenLogo env chain (getNativeTokenSymbol chain) } ∧
    addToken env chain location status address rawBalance owner =
      ([], .ok { type := "token", chain := chain, location := location, status := status,
                 owner := owner, symbol := t.symbol, address := address,
                 balance := rawBalance / 10 ^ t.decimals, price := none,
                 logo := t.logo }) ∧
    addDebtToken env chain location address rawBalance owner =
      ([], .ok { type := "debt", chain := chain, location := location,
                 status := "borrowed", owner := owner, symbol := t.symbol,
                 address := address, balance := rawBalance / 10 ^ t.decimals,
                 price := none, logo := t.logo }) ∧
    (∃ lp : LPToken,
      addLPToken env chain location status address rawBalance owner =
        ([⟨chain, address, lpCalls⟩], .ok lp) ∧
      lp.token0.price = none ∧ lp.token1.price = none) ∧
    (∃ x : XToken,
      addXToken env chain location status address rawBalance owner
          underlyingAddress underlyingRawBalance =
        ([⟨chain, address, tokenCalls⟩], .ok x) ∧
      x.underlyingToken.price = none) := by
  refine ⟨?_, ?_, ?_, ?_, ?_⟩
  · simp only [addNativeToken, hprice]
  · rw [addToken_tracked env chain location status address rawBalance owner t hsent htrack,
      hprice]
  · rw [addDebtToken_tracked env chain location address rawBalance owner t hsent htrack,
      hprice]
  · exact ⟨_, addLPToken_eval env chain location status address rawBalance owner sym dec
      r0 r1 ts a0 a1 t0 t1 hlp h0 h1, hprice _ _ _, hprice _ _ _⟩
  · exact ⟨_, addXToken_tracked_eval env chain location status address rawBalance owner
      underlyingAddress underlyingRawBalance sym2 dec2 t htok htrack, hprice _ _ _⟩

/-- Witness for C7, in the concrete environment envC7 where every price
    lookup fails: all five build operations succeed with absent prices. -/
theorem price_failure_degrades_to_absent_witness :
    (addNativeToken envC7 .eth 10 "0xme").price = none ∧
    addToken envC7 .eth "wallet" "none" "0xt" 10 "0xme" =
      ([], .ok { type := "token", chain := .eth, location := "wallet", status := "none",
                 owner := "0xme", symbol := "TTT", address := "0xt",
                 balance := 10 / 10 ^ 6, price := none, logo := "lt" }) ∧
    (∃ lp : LPToken,
      addLPToken envC7 .eth "wallet" "none" "0xt" 10 "0xme" =
        ([⟨.eth, "0xt", lpCalls⟩], .ok lp) ∧
      lp.token0.price = none ∧ lp.token1.price = none) ∧
    (∃ x : XToken,
      addXToken envC7 .eth "wallet" "none" "0xt" 10 "0xme" "0xa" 7 =
        ([⟨.eth, "0xt", tokenCalls⟩], .ok x) ∧
      x.underlyingToken.price = none) := by
  obtain ⟨hn, ht, hd, hlp, hx⟩ := price_failure_degrades_to_absent envC7 .eth "wallet"
    "none" "0xt" 10 "0xme" "0xa" 7 "LP" "UUU" 0 12 1000 2000 100 "0xa" "0xb"
    ⟨"0xt", "TTT", "lt", 6⟩ ⟨"0xa", "AAA", "la", 0⟩ ⟨"0xb", "BBB", "lb", 0⟩
    (fun _ _ _ => rfl) (by decide) (by decide) rfl rfl (by decide) (by decide)
  refine ⟨by rw [hn], ?_, hlp, hx⟩
  rw [ht]

/-- Claim C9. Every balance stored in a built record equals the raw quantity
    divided by 10 to the resolved decimals, including nested underlying
    balances, and the native builder fixes decimals at 18. -/
theorem balances_decimal_normalized (env : Env) (chain : EVMChain)
    (location status address address2 : String) (rawBalance : ℚ)
    (owner underlyingAddress : String) (underlyingRawBalance : ℚ)
    (sym sym2 : String) (dec dec2 : Nat) (r0 r1 ts : ℤ) (a0 a1 : String)
    (t t0 t1 : TokenData)
    (hsent2 : jsToLower address2 ≠ defaultAddress)
    (htrack2 : getTrackedTokenInfo env chain address2 = none)
    (htok2 : env.mcOneContract chain address2 tokenCalls = tokenRespData sym2 dec2)
    (htrack : getTrackedTokenInfo env chain address = some t)
    (hlp : env.mcOneContract chain address lpCalls = lpRespData sym dec r0 r1 ts a0 a1)
    (htok : env.mcOneContract chain address tokenCalls = tokenRespData sym2 dec2)
    (h0 : getTrackedTokenInfo env chain a0 = some t0)
    (h1 : getTrackedTokenInfo env chain a1 = some t1) :
    (addNativeToken env chain rawBalance owner).balance = rawBalance / 10 ^ (18 : Nat) ∧
    (addTrackedToken env chain location status t rawBalance owner).balance =
      rawBalance / 10 ^ t.decimals ∧
    (∃ tok : Token,
      addToken env chain location status address2 rawBalance owner =
        ([⟨chain, address2, tokenCalls⟩], .ok tok) ∧
      tok.balance = rawBalance / 10 ^ dec2) ∧
    (∃ lp : LPToken,
      addLPToken env chain location status address rawBalance owner =
        ([⟨chain, address, lpCalls⟩], .ok lp) ∧
      lp.balance = rawBalance / 10 ^ dec ∧
      lp.token0.balance = ((r0 : ℚ) * rawBalance / (ts : ℚ)) / 10 ^ t0.decimals ∧
      lp.token1.balance = ((r1 : ℚ) * rawBalance / (ts : ℚ)) / 10 ^ t1.decimals) ∧
    (∃ x : XToken,
      addXToken env chain location status address rawBalance owner
          underlyingAddress underlyingRawBalance =
        ([⟨chain, address, tokenCalls⟩], .ok x) ∧
      x.balance = rawBalance / 10 ^ dec2 ∧
      x.underlyingToken.balance = underlyingRawBalance / 10 ^ t.decimals) := by
  refine ⟨rfl, rfl, ?_, ?_, ?_⟩
  · exact ⟨_, addToken_miss env chain location status address2 rawBalance owner sym2 dec2
      hsent2 htrack2 htok2, rfl⟩
  · refine ⟨_, addLPToken_eval env chain location status address rawBalance owner sym dec
      r0 r1 ts a0 a1 t0 t1 hlp h0 h1, rfl, ?_, ?_⟩
    · exact share_normalized (r0 : ℚ) rawBalance (ts : ℚ) (10 ^ t0.decimals) (10 ^ dec)
        (pow_ne_zero _ (by norm_num))
    · exact share_normalized (r1 : ℚ) rawBalance (ts : ℚ) (10 ^ t1.decimals) (10 ^ dec)
        (pow_ne_zero _ (by norm_num))
  · exact ⟨_, addXToken_tracked_eval env chain location status address rawBalance owner
      underlyingAddress underlyingRawBalance sym2 dec2 t htok htrack, rfl, rfl⟩

/-- Witness for C9: a raw native balance of 1500000000000000000 normalizes to
    1.5, and the tracked token with 6 decimals normalizes 10 to 10 over a
    million. -/
theorem balances_decimal_normalized_witness :
    (addNativeToken envC7 .eth 1500000000000000000 "0xme").balance = 3 / 2 ∧
    (∃ lp : LPToken,
      addLPToken envC7 .eth "wallet" "none" "0xt" 10 "0xme" =
        ([⟨.eth, "0xt", lpCalls⟩], .ok lp) ∧
      lp.token0.balance = 100) := by
  obtain ⟨hn, _, _, ⟨lp, heq, _, hb0, _⟩, _⟩ := balances_decimal_normalized envC7 .eth
    "wallet" "none" "0xt" "0xu" 1500000000000000000 "0xme" "0xa" 7 "LP" "UUU" 0 12
    1000 2000 100 "0xa" "0xb" ⟨"0xt", "TTT", "lt", 6⟩ ⟨"0xa", "AAA", "la", 0⟩
    ⟨"0xb", "BBB", "lb", 0⟩ (by decide) (by decide) rfl (by decide) rfl rfl
    (by decide) (by decide)
  constructor
  · rw [hn]
    norm_num
  · obtain ⟨_, _, _, ⟨lp2, heq2, _, hb2, _⟩, _⟩ := balances_decimal_normalized envC7 .eth
      "wallet" "none" "0xt" "0xu" 10 "0xme" "0xa" 7 "LP" "UUU" 0 12
      1000 2000 100 "0xa" "0xb" ⟨"0xt", "TTT", "lt", 6⟩ ⟨"0xa", "AAA", "la", 0⟩
      ⟨"0xb", "BBB", "lb", 0⟩ (by decide) (by decide) rfl (by decide) rfl rfl
      (by decide) (by decide)
    refine ⟨lp2, heq2, ?_⟩
    rw [hb2]
    norm_num

/- ===================== Fan-out join lemmas ===================== -/

theorem getPoolBalancesList_ok {α : Type} (branch : Nat → Except JSError (List α)) :
    ∀ l : List Nat, (∀ i ∈ l, ∃ v, branch i = .ok v) →
    getPoolBalancesList branch l =
      .ok ((l.map (fun i => (branch i).toOption.getD [])).flatten) := by
  intro l
  induction l with
  | nil => intro _; simp [getPoolBalancesList]
  | cons i rest ih =>
    intro h
    obtain ⟨v, hv⟩ := h i (List.mem_cons_self _ _)
    simp only [getPoolBalancesList, hv,
      ih (fun j hj => h j (List.mem_cons_of_mem _ hj)), List.map_cons, List.flatten]
    simp [hv, Except.toOption]

theorem getPoolBalancesList_error {α : Type} (branch : Nat → Except JSError (List α)) :
    ∀ (l : List Nat) (j : Nat) (e : JSError), j ∈ l → branch j = .error e →
    ∃ e2, getPoolBalancesList branch l = .error e2 := by
  intro l
  induction l with
  | nil => intro j e hj _; simp at hj
  | cons i rest ih =>
    intro j e hj hje
    cases hbi : branch i with
    | error e3 => exact ⟨e3, by simp only [getPoolBalancesList, hbi]⟩
    | ok v =>
      rcases List.mem_cons.mp hj with rfl | hj2
      · rw [hbi] at hje
        exact absurd hje (by simp)
      · obtain ⟨e2, h2⟩ := ih j e hj2 hje
        exact ⟨e2, by simp only [getPoolBalancesList, hbi, h2]⟩

/-- The token contributed by the succeeding pool branch in the C8
    counterexample. -/
def cexToken : Token :=
  { type := "token", chain := .avax, location := "axial", status := "staked",
    owner := "0xme", symbol := "AXIAL", address := "0xax", balance := 1,
    price := none, logo := defaultTokenLogo }

/-- Two pool branches: pool 0 raises, pool 1 contributes one token. -/
def cexBranch : Nat → Except JSError (List Token) :=
  fun i => if i = 0 then .error .typeError else .ok [cexToken]

/-- Counterexample to claim C8 as stated. With two pool discovery branches
    where branch 0 always raises and branch 1 contributes one record, the
    joined adapter result is the empty list, not the union of the other
    branches results: the pool branches of getPoolBalances do not catch their
    own errors, so one rejection makes Promise.all reject and the adapter
    level catch in get discards the sibling contribution. -/
theorem axial_pool_failure_cancels_siblings :
    axialGet 2 cexBranch = [] ∧
    cexBranch 0 = .error .typeError ∧ cexBranch 1 = .ok [cexToken] := by
  exact ⟨rfl, rfl, rfl⟩

/-- Claim C8 (amended). Failure isolation holds only at the adapter boundary:
    the adapter entry point get never propagates an error, contributing the
    concatenation of all pool branch results when every branch succeeds, and
    contributing the empty list as soon as any single pool branch raises,
    discarding the sibling branches results. -/
theorem axial_fanout_isolation {α : Type} (N : Nat)
    (branch : Nat → Except JSError (List α)) :
    ((∀ i, i < N → ∃ v, branch i = .ok v) →
      axialGet N branch =
        ((List.range N).map (fun i => (branch i).toOption.getD [])).flatten) ∧
    (∀ j e, j < N → branch j = .error e → axialGet N branch = []) := by
  constructor
  · intro h
    unfold axialGet getPoolBalances
    rw [getPoolBalancesList_ok branch (List.range N)
      (fun i hi => h i (List.mem_range.mp hi))]
  · intro j e hj hje
    unfold axialGet getPoolBalances
    obtain ⟨e2, h2⟩ := getPoolBalancesList_error branch (List.range N) j e
      (List.mem_range.mpr hj) hje
    rw [h2]

/-- Witness for the amended C8: with two succeeding branches the adapter
    contributes both results, and with the raising branch of the
    counterexample input it contributes the empty list. -/
theorem axial_fanout_isolation_witness :
    axialGet 2 (fun _ => (.ok [cexToken] : Except JSError (List Token))) =
      [cexToken, cexToken] ∧
    axialGet 2 cexBranch = [] := by
  obtain ⟨h1, _⟩ := axial_fanout_isolation 2 (fun _ => (.ok [cexToken] : Except JSError (List Token)))
  obtain ⟨_, h4⟩ := axial_fanout_isolation 2 cexBranch
  constructor
  · rw [h1 (fun i _ => ⟨[cexToken], rfl⟩)]
    rfl
  · exact h4 0 .typeError (by omega) rfl

/- ===================== Wallet scan lemmas ===================== -/

/-- The native wallet record list is either empty or a single record built
    from a strictly positive truthy queried balance. -/
theorem getWalletNativeTokenBalance_cases (env : Env) (k : Nat) (chain : EVMChain)
    (wallet : String) (o : Nat → Attempt) (fuel : Nat) (nativeTokens : List Token)
    (hw : getWalletNativeTokenBalance env k chain wallet o fuel = some nativeTokens) :
    nativeTokens = [] ∨
    ∃ b : ℚ, 0 < b ∧ nativeLoop k o fuel none 0 0 0 = some (some b) ∧
      nativeTokens = [addNativeToken env chain b wallet] := by
  unfold getWalletNativeTokenBalance at hw
  cases hnl : nativeLoop k o fuel none 0 0 0 with
  | none =>
    rw [hnl] at hw
    exact absurd hw (by simp)
  | some bal =>
    cases bal with
    | none =>
      simp only [hnl] at hw
      left
      injection hw with h
      exact h.symm
    | some b =>
      simp only [hnl] at hw
      by_cases hpos : b ≠ 0 ∧ 0 < b
      · rw [if_pos hpos] at hw
        right
        injection hw with h
        exact ⟨b, hpos.2, rfl, h.symm⟩
      · rw [if_neg hpos] at hw
        left
        injection hw with h
        exact h.symm

/-- Claim C10. The wallet scan never returns a record with a nonpositive
    balance: the native record is included only when the queried native
    balance is strictly positive, and a tracked token record is included only
    when its balanceOf entry is present in the multicall result and parses
    strictly positive. -/
theorem wallet_balances_positive (env : Env) (k : Nat) (chain : EVMChain)
    (wallet : String) (o : Nat → Attempt) (fuel : Nat)
    (data : ChainTokenData) (results : List (String × List JSVal)) (l : List Token)
    (hdata : env.chainTokenData chain = some data)
    (hmc : multicallOneMethodQuery (data.tokens.map (fun token => token.address))
      (env.mcOneMethod chain (data.tokens.map (fun token => token.address))
        "balanceOf" [.str wallet]) = .ok results)
    (hres : getWalletBalance env k chain wallet o fuel = some (.ok l)) :
    (∀ t ∈ l, 0 < t.balance) ∧
    ((∃ t ∈ l, t.type = "nativeToken") →
      ∃ b : ℚ, 0 < b ∧ nativeLoop k o fuel none 0 0 0 = some (some b)) ∧
    (∀ t ∈ l, t.type = "token" →
      ∃ token ∈ data.tokens, ∃ vals, recGet results token.address = some vals ∧
        0 < parseBN (vals.headD .undef) ∧
        t = addTrackedToken env chain "wallet" "none" token
          (parseBN (vals.headD .undef)) wallet) := by
  unfold getWalletBalance at hres
  cases hw : getWalletNativeTokenBalance env k chain wallet o fuel with
  | none =>
    rw [hw] at hres
    exact absurd hres (by simp)
  | some nativeTokens =>
    simp only [hw] at hres
    have htb : getWalletTokenBalance env chain wallet =
        .ok (data.tokens.filterMap (fun token =>
          match recGet results token.address with
          | some balanceResults =>
            if 0 < parseBN (balanceResults.headD .undef) then
              some (addTrackedToken env chain "wallet" "none" token
                (parseBN (balanceResults.headD .undef)) wallet)
            else none
          | none => none)) := by
      unfold getWalletTokenBalance getChainTokenData
      rw [hdata]
      simp only [hmc]
    simp only [htb] at hres
    injection hres with hres
    injection hres with hres
    subst hres
    have hnative := getWalletNativeTokenBalance_cases env k chain wallet o fuel
      nativeTokens hw
    have htracked : ∀ t, t ∈ data.tokens.filterMap (fun token =>
        match recGet results token.address with
        | some balanceResults =>
          if 0 < parseBN (balanceResults.headD .undef) then
            some (addTrackedToken env chain "wallet" "none" token
              (parseBN (balanceResults.headD .undef)) wallet)
          else none
        | none => none) →
        ∃ token ∈ data.tokens, ∃ vals, recGet results token.address = some vals ∧
          0 < parseBN (vals.headD .undef) ∧
          t = addTrackedToken env chain "wallet" "none" token
            (parseBN (vals.headD .undef)) wallet := by
      intro t ht
      obtain ⟨token, htok, hf⟩ := List.mem_filterMap.mp ht
      cases hrg : recGet results token.address with
      | none =>
        rw [hrg] at hf
        exact absurd hf (by simp)
      | some vals =>
        simp only [hrg] at hf
        by_cases hpos : 0 < parseBN (vals.headD .undef)
        · rw [if_pos hpos] at hf
          injection hf with hf
          exact ⟨token, htok, vals, hrg, hpos, hf.symm⟩
        · rw [if_neg hpos] at hf
          exact absurd hf (by simp)
    refine ⟨?_, ?_, ?_⟩
    · intro t ht
      rcases List.mem_append.mp ht with hn | htr
      · rcases hnative with h0 | ⟨b, hb, _, hEq⟩
        · rw [h0] at hn
          simp at hn
        · rw [hEq] at hn
          rcases List.mem_singleton.mp hn with rfl
          show 0 < b / 10 ^ (18 : Nat)
          exact div_pos hb (pow_pos (by norm_num) _)
      · obtain ⟨token, _, vals, _, hpos, hEq⟩ := htracked t htr
        rw [hEq]
        show 0 < parseBN (vals.headD .undef) / 10 ^ token.decimals
        exact div_pos hpos (pow_pos (by norm_num) _)
    · rintro ⟨t, ht, htype⟩
      rcases List.mem_append.mp ht with hn | htr
      · rcases hnative with h0 | ⟨b, hb, hnl, hEq⟩
        · rw [h0] at hn
          simp at hn
        · exact ⟨b, hb, hnl⟩
      · obtain ⟨token, _, vals, _, _, hEq⟩ := htracked t htr
        rw [hEq] at htype
        simp [addTrackedToken] at htype
    · intro t ht htype
      rcases List.mem_append.mp ht with hn | htr
      · rcases hnative with h0 | ⟨b, hb, _, hEq⟩
        · rw [h0] at hn
          simp at hn
        · rw [hEq] at hn
          rcases List.mem_singleton.mp hn with rfl
          simp [addNativeToken] at htype
      · exact htracked t htr

/-- The environment of the C10 witness: two tracked tokens on eth, a balance
    multicall giving raw balance 5 to 0xt and 0 to 0xz, and a native balance
    query succeeding with 7. -/
def envC10 : Env :=
  { chainTokenData := fun c =>
      if c = EVMChain.eth then
        some { tokens := [{ address := "0xt", symbol := "TTT", logo := "lt", decimals := 0 },
                          { address := "0xz", symbol := "ZZZ", logo := "lz", decimals := 0 }],
               logos := [] }
      else none,
    getTokenPrice := fun _ _ _ => none,
    mcOneContract := fun _ _ _ => [],
    mcOneMethod := fun _ _ _ _ c =>
      if c = "0xt" then some ⟨[⟨"", true, [.big 5]⟩]⟩
      else if c = "0xz" then some ⟨[⟨"", true, [.big 0]⟩]⟩
      else none }

/-- Witness for C10: in the concrete scan, both returned records have
    strictly positive balances and the zero-balance token 0xz is omitted. -/
theorem wallet_balances_positive_witness :
    0 < (addNativeToken envC10 .eth 7 "0xw").balance ∧
    0 < (addTrackedToken envC10 .eth "wallet" "none"
      ⟨"0xt", "TTT", "lt", 0⟩ 5 "0xw").balance ∧
    getWalletBalance envC10 1 .eth "0xw" (fun _ => .succ (.big 7)) 5 =
      some (.ok [addNativeToken envC10 .eth 7 "0xw",
        addTrackedToken envC10 .eth "wallet" "none" ⟨"0xt", "TTT", "lt", 0⟩ 5 "0xw"]) := by
  have hres : getWalletBalance envC10 1 .eth "0xw" (fun _ => .succ (.big 7)) 5 =
      some (.ok [addNativeToken envC10 .eth 7 "0xw",
        addTrackedToken envC10 .eth "wallet" "none" ⟨"0xt", "TTT", "lt", 0⟩ 5 "0xw"]) := rfl
  obtain ⟨hall, _, _⟩ := wallet_balances_positive envC10 1 .eth "0xw"
    (fun _ => .succ (.big 7)) 5
    { tokens := [{ address := "0xt", symbol := "TTT", logo := "lt", decimals := 0 },
                 { address := "0xz", symbol := "ZZZ", logo := "lz", decimals := 0 }],
      logos := [] }
    [("0xt", [.big 5]), ("0xz", [.big 0])]
    [addNativeToken envC10 .eth 7 "0xw",
     addTrackedToken envC10 .eth "wallet" "none" ⟨"0xt", "TTT", "lt", 0⟩ 5 "0xw"]
    rfl rfl hres
  exact ⟨hall _ (by simp), hall _ (by simp), hres⟩

end Weaver

